import Mathlib

/-!
# Whetstone2.cpp

A shallow embedding of `src/Whetstone2.cpp`: the class template
`WhetstoneBenchmark<T>` (constructor, `run`, `perform_benchmark`, the helper
procedures `P0`, `PA`, `P3` and the ten workload modules) and `main`.

Conventions of the embedding.

* `double` values are exact rationals together with the IEEE specials
  (`Dbl`); no rounding is performed, and zero carries no sign (it behaves as
  `+0`).  The `float` and `double` instantiations are both read in this exact
  arithmetic (`realElem`).
* `int` values are mathematical integers reduced by `wrap32` after every
  operation (two's complement, 32 bits).  The modules that only use `int`
  locals take the reduction as a parameter `w`, so that they can also be read
  in exact integer arithmetic (`w = id`).
* The functions of `<cmath>` are not part of the repository; they are the
  fields of a parameter `Cmath`.
* Undefined behaviour (an index outside the container, a `double` that does
  not fit the element type) is the result `none`.
* `long` values are mathematical integers; the width `longBits` of `long` is
  a parameter, and the product `k * loop_count` of a loop bound is reduced
  by `wrapLong` (two's complement), so that it wraps when it overflows.  A
  `for (long i = 0; i < k * loop_count; ++i)` loop runs as many times as the
  reduced product says, and not at all when that is zero or negative.
* The clock is an input: `run` receives the two time points it would read.
-/

set_option autoImplicit false

namespace Whetstone

/-! ## Values of type `double` -/

/-- Exact model of a `double`: a rational, plus or minus infinity, or NaN. -/
inductive Dbl where
  | fin (q : ℚ)
  | pinf
  | ninf
  | nan
  deriving DecidableEq

namespace Dbl

/-- Unary minus. -/
def neg : Dbl → Dbl
  | fin q => fin (-q)
  | pinf => ninf
  | ninf => pinf
  | nan => nan

/-- Addition of doubles. -/
def add : Dbl → Dbl → Dbl
  | fin a, fin b => fin (a + b)
  | fin _, pinf => pinf
  | fin _, ninf => ninf
  | pinf, fin _ => pinf
  | pinf, pinf => pinf
  | ninf, fin _ => ninf
  | ninf, ninf => ninf
  | _, _ => nan

/-- Subtraction of doubles. -/
def sub (a b : Dbl) : Dbl := add a (neg b)

/-- An infinity of the given sign. -/
def signedInf (positive : Bool) : Dbl := if positive then pinf else ninf

/-- Multiplication of doubles. -/
def mul : Dbl → Dbl → Dbl
  | fin a, fin b => fin (a * b)
  | fin a, pinf => if a = 0 then nan else signedInf (decide (0 < a))
  | fin a, ninf => if a = 0 then nan else signedInf (decide (a < 0))
  | pinf, fin b => if b = 0 then nan else signedInf (decide (0 < b))
  | ninf, fin b => if b = 0 then nan else signedInf (decide (b < 0))
  | pinf, pinf => pinf
  | pinf, ninf => ninf
  | ninf, pinf => ninf
  | ninf, ninf => pinf
  | _, _ => nan

/-- Division of doubles; a finite non-zero value divided by zero is an
infinity, zero divided by zero is NaN. -/
def div : Dbl → Dbl → Dbl
  | fin a, fin b =>
      if b = 0 then (if a = 0 then nan else signedInf (decide (0 < a))) else fin (a / b)
  | fin _, pinf => fin 0
  | fin _, ninf => fin 0
  | pinf, fin b => signedInf (decide (0 ≤ b))
  | ninf, fin b => signedInf (decide (b < 0))
  | _, _ => nan

/-- The comparison `a >= b`; false as soon as one side is NaN. -/
def ge : Dbl → Dbl → Bool
  | fin a, fin b => decide (b ≤ a)
  | fin _, ninf => true
  | pinf, fin _ => true
  | pinf, pinf => true
  | pinf, ninf => true
  | ninf, ninf => true
  | _, _ => false

end Dbl

/-- The functions of `<cmath>` used by modules 7 and 11, taken at type
`double`. -/
structure Cmath where
  sin : Dbl → Dbl
  cos : Dbl → Dbl
  atan : Dbl → Dbl
  sqrt : Dbl → Dbl
  exp : Dbl → Dbl
  log : Dbl → Dbl

/-! ## The element type `T` -/

/-- Reduction of an integer to the range of a 32-bit `int`. -/
def wrap32 (x : Int) : Int := (x + 2 ^ 31) % 2 ^ 32 - 2 ^ 31

/-- Truncation of a rational toward zero. -/
def truncQ (q : ℚ) : Int := if 0 ≤ q then ⌊q⌋ else ⌈q⌉

/-- The arithmetic the template needs from its element type `T`. -/
structure Elem (α : Type) where
  /-- Value-initialised element, `T()`. -/
  zero : α
  /-- Conversion `double → T` (`static_cast<T>` and assignment of a double). -/
  ofDouble : Dbl → Option α
  /-- Promotion `T → double` in a mixed expression. -/
  toDouble : α → Dbl
  /-- Conversion `int → T`. -/
  ofInt : Int → α
  add : α → α → α
  sub : α → α → α
  mul : α → α → α
  neg : α → α

/-- The element type `int`. -/
def intElem : Elem Int where
  zero := 0
  ofDouble := fun d =>
    match d with
    | Dbl.fin q =>
        if -2 ^ 31 ≤ truncQ q ∧ truncQ q < 2 ^ 31 then some (truncQ q) else none
    | _ => none
  toDouble := fun z => Dbl.fin z
  ofInt := fun z => z
  add := fun a b => wrap32 (a + b)
  sub := fun a b => wrap32 (a - b)
  mul := fun a b => wrap32 (a * b)
  neg := fun a => wrap32 (-a)

/-- The element types `float` and `double`, in exact arithmetic. -/
def realElem : Elem Dbl where
  zero := Dbl.fin 0
  ofDouble := fun d => some d
  toDouble := fun d => d
  ofInt := fun z => Dbl.fin z
  add := Dbl.add
  sub := Dbl.sub
  mul := Dbl.mul
  neg := Dbl.neg

/-! ## The container `E1` and loops -/

/-- Read `E1[i]`. -/
def rd {α : Type} (E : List α) (i : Nat) : Option α := E.get? i

/-- Write `E1[i] = v`. -/
def wr {α : Type} (E : List α) (i : Nat) (v : α) : Option (List α) :=
  if i < E.length then some (E.set i v) else none

/-- Write `E1[i] = v` for an `int` index `i`. -/
def wrAt {α : Type} (E : List α) (i : Int) (v : α) : Option (List α) :=
  if 0 ≤ i then wr E i.toNat v else none

/-- Reduction of an integer to the range of a `long` of `longBits` bits. -/
def wrapLong (longBits : Nat) (x : Int) : Int :=
  (x + 2 ^ (longBits - 1)) % 2 ^ longBits - 2 ^ (longBits - 1)

/-- Number of iterations of `for (long i = 0; i < k * loop_count; ++i)`: the
product is computed in `long`. -/
def trips (longBits : Nat) (k : Int) (loop_count : Int) : Nat :=
  (wrapLong longBits (k * loop_count)).toNat

/-- Number of iterations of `for (long i = 0; i < loop_count; ++i)`. -/
def iterations (loop_count : Int) : Nat := loop_count.toNat

/-- Run a loop body `n` times, stopping at the first failure. -/
def loop {σ : Type} (body : σ → Option σ) : Nat → σ → Option σ
  | 0, s => some s
  | n + 1, s => (body s).bind (loop body n)

/-- The assignment `E1[i] = x` of a double literal `x`. -/
def wrLit {α : Type} (ofDouble : Dbl → Option α) (E : List α) (i : Nat) (x : ℚ) :
    Option (List α) :=
  (ofDouble (Dbl.fin x)).bind (wr E i)

/-- Evaluate an expression `f` over the values read from `E1[1]`, `E1[2]`,
`E1[3]`, `E1[4]`. -/
def withSlots {α : Type} (E : List α) (f : α → α → α → α → α) : Option α := do
  let a1 ← rd E 1
  let a2 ← rd E 2
  let a3 ← rd E 3
  let a4 ← rd E 4
  some (f a1 a2 a3 a4)

/-! ## The benchmark object -/

/-- The data members of `WhetstoneBenchmark<T>`. -/
structure Bench (α : Type) where
  loop_count : Int
  E1 : List α
  T_ : α
  T1 : α
  T2 : α

/-- The constructor: `E1.resize(5)` and the three member initialisers. -/
def WhetstoneBenchmark {α : Type} (e : Elem α) (loop_count : Int) : Option (Bench α) := do
  let T_ ← e.ofDouble (Dbl.fin (499975 / 1000000))
  let T1 ← e.ofDouble (Dbl.fin (50025 / 100000))
  let T2 ← e.ofDouble (Dbl.fin 2)
  some ⟨loop_count, List.replicate 5 e.zero, T_, T1, T2⟩

/-- Helper `P0`. -/
def P0 {α : Type} (E : List α) : Option (List α) := do
  let e2 ← rd E 2
  let E ← wr E 3 e2
  let e1 ← rd E 1
  let E ← wr E 2 e1
  let e3 ← rd E 3
  wr E 1 e3

/-- The four locals of module 1. -/
structure Quad (α : Type) where
  X1 : α
  X2 : α
  X3 : α
  X4 : α

/-- The declaration `T X1 = x1, X2 = x2, X3 = x3, X4 = x4;` with double literals. -/
def initQuad {α : Type} (ofDouble : Dbl → Option α) (x1 x2 x3 x4 : ℚ) : Option (Quad α) := do
  let X1 ← ofDouble (Dbl.fin x1)
  let X2 ← ofDouble (Dbl.fin x2)
  let X3 ← ofDouble (Dbl.fin x3)
  let X4 ← ofDouble (Dbl.fin x4)
  some ⟨X1, X2, X3, X4⟩

/-- One iteration of the loop of module 1. -/
def module1_body {α : Type} (e : Elem α) (T_ : α) (s : Quad α) : Quad α :=
  let X1 := e.mul (e.sub (e.add (e.add s.X1 s.X2) s.X3) s.X4) T_
  let X2 := e.mul (e.add (e.sub (e.add X1 s.X2) s.X3) s.X4) T_
  let X3 := e.mul (e.add (e.add (e.sub X1 X2) s.X3) s.X4) T_
  let X4 := e.mul (e.add (e.add (e.add (e.neg X1) X2) X3) s.X4) T_
  ⟨X1, X2, X3, X4⟩

/-- Module 1, on the locals passed by reference. -/
def module1_simple_identifiers {α : Type} (e : Elem α) (b : Bench α) (s : Quad α) : Quad α :=
  (module1_body e b.T_)^[iterations b.loop_count] s

/-- One iteration of the loop of module 2. -/
def module2_body {α : Type} (e : Elem α) (T_ : α) (E : List α) : Option (List α) := do
  let x ← withSlots E (fun a1 a2 a3 a4 => e.mul (e.sub (e.add (e.add a1 a2) a3) a4) T_)
  let E ← wr E 1 x
  let x ← withSlots E (fun a1 a2 a3 a4 => e.mul (e.add (e.sub (e.add a1 a2) a3) a4) T_)
  let E ← wr E 2 x
  let x ← withSlots E (fun a1 a2 a3 a4 => e.mul (e.add (e.add (e.sub a1 a2) a3) a4) T_)
  let E ← wr E 3 x
  let x ← withSlots E (fun a1 a2 a3 a4 => e.mul (e.add (e.add (e.add (e.neg a1) a2) a3) a4) T_)
  wr E 4 x

/-- Module 2. -/
def module2_array_elements (longBits : Nat) {α : Type} (e : Elem α) (b : Bench α) :
    Option (List α) :=
  loop (module2_body e b.T_) (trips longBits 12 b.loop_count) b.E1

/-- Helper `PA`. -/
def PA {α : Type} (e : Elem α) (T_ : α) (arr : List α) : Option (List α) := do
  let x ← withSlots arr (fun a1 a2 a3 a4 => e.mul (e.sub (e.add (e.add a1 a2) a3) a4) T_)
  wr arr 1 x

/-- Module 3. -/
def module3_array_as_parameter (longBits : Nat) {α : Type} (e : Elem α) (b : Bench α) :
    Option (List α) :=
  loop (PA e b.T_) (trips longBits 14 b.loop_count) b.E1

/-- One iteration of the loop of module 4. -/
def module4_body (J : Int) : Int :=
  let J := if J = 1 then 2 else 3
  let J := if J > 2 then 0 else 1
  let J := if J < 1 then 1 else 0
  J

/-- Module 4; the result is the final value of the local `J`. -/
def module4_conditional_jumps (longBits : Nat) (loop_count : Int) : Int :=
  module4_body^[trips longBits 345 loop_count] 1

/-- The locals of module 6 together with the container. -/
structure M6 (α : Type) where
  J : Int
  K : Int
  L : Int
  E1 : List α

/-- The three assignments to `J`, `K`, `L` in the loop of module 6. -/
def module6_locals (w : Int → Int) (s : Int × Int × Int) : Int × Int × Int :=
  let J := s.1
  let K := s.2.1
  let L := s.2.2
  let J := w (w (J * w (K - J)) * w (L - K))
  let K := w (w (L * K) - w (w (L - J) * K))
  let L := w (w (L - K) * w (K + J))
  (J, K, L)

/-- One iteration of the loop of module 6. -/
def module6_body {α : Type} (e : Elem α) (w : Int → Int) (s : M6 α) : Option (M6 α) := do
  let (J, K, L) := module6_locals w (s.J, s.K, s.L)
  let E ← wrAt s.E1 (w (L - 1)) (e.ofInt (w (w (J + K) + L)))
  let E ← wrAt E (w (K - 1)) (e.ofInt (w (w (J * K) * L)))
  some ⟨J, K, L, E⟩

/-- Module 6. -/
def module6_integer_arithmetic (longBits : Nat) {α : Type} (e : Elem α) (w : Int → Int)
    (b : Bench α) : Option (M6 α) :=
  loop (module6_body e w) (trips longBits 210 b.loop_count) ⟨1, 2, 3, b.E1⟩

/-- The right-hand side
`T_ * atan(T2 * sin(A) * cos(A) / (cos(X + Y) + cos(X - Y) - 1.0))` of module 7. -/
def module7_rhs {α : Type} (e : Elem α) (m : Cmath) (T_ T2 A X Y : α) : Dbl :=
  Dbl.mul (e.toDouble T_)
    (m.atan (Dbl.div
      (Dbl.mul (Dbl.mul (e.toDouble T2) (m.sin (e.toDouble A))) (m.cos (e.toDouble A)))
      (Dbl.sub (Dbl.add (m.cos (e.toDouble (e.add X Y))) (m.cos (e.toDouble (e.sub X Y))))
        (Dbl.fin 1))))

/-- One iteration of the loop of module 7, on the locals `(X, Y)`. -/
def module7_body {α : Type} (e : Elem α) (m : Cmath) (T_ T2 : α) (s : α × α) :
    Option (α × α) := do
  let X ← e.ofDouble (module7_rhs e m T_ T2 s.1 s.1 s.2)
  let Y ← e.ofDouble (module7_rhs e m T_ T2 s.2 X s.2)
  some (X, Y)

/-- Module 7; the result is the final `(X, Y)`. -/
def module7_trigonometric_functions (longBits : Nat) {α : Type} (e : Elem α) (m : Cmath)
    (b : Bench α) : Option (α × α) := do
  let X ← e.ofDouble (Dbl.fin (1 / 2))
  let Y ← e.ofDouble (Dbl.fin (1 / 2))
  loop (module7_body e m b.T_ b.T2) (trips longBits 32 b.loop_count) (X, Y)

/-- Helper `P3`: `X`, `Y` by value, `Z` by reference; the result is the new `Z`. -/
def P3 {α : Type} (e : Elem α) (T_ : α) (X Y : α) (_Z : α) : α :=
  e.mul (e.add X Y) T_

/-- Module 8; the result is the final `(X, Y, Z)`. -/
def module8_procedure_calls (longBits : Nat) {α : Type} (e : Elem α) (b : Bench α) :
    Option (α × α × α) := do
  let X ← e.ofDouble (Dbl.fin 1)
  let Y ← e.ofDouble (Dbl.fin 1)
  let Z ← e.ofDouble (Dbl.fin 1)
  some ((fun s : α × α × α =>
    (s.1, s.2.1, P3 e b.T_ s.1 s.2.1 s.2.2))^[trips longBits 899 b.loop_count] (X, Y, Z))

/-- Module 9; the result is the container (the locals `J`, `K`, `L` are dead). -/
def module9_array_references (longBits : Nat) {α : Type} (e : Elem α) (b : Bench α) :
    Option (List α) := do
  let E ← wrLit e.ofDouble b.E1 1 1
  let E ← wrLit e.ofDouble E 2 2
  let E ← wrLit e.ofDouble E 3 3
  loop P0 (trips longBits 616 b.loop_count) E

/-- One iteration of the loop of module 10, on the locals `(J, K)`. -/
def module10_body (w : Int → Int) (s : Int × Int) : Int × Int :=
  let J := s.1
  let K := s.2
  let J := w (J + K)
  let K := w (J + K)
  let J := w (K - J)
  let K := w (w (K - J) - J)
  (J, K)

/-- Module 10; the result is the final `(J, K)`. -/
def module10_integer_arithmetic (w : Int → Int) (loop_count : Int) : Int × Int :=
  (module10_body w)^[iterations loop_count] (2, 3)

/-- One iteration of the loop of module 11: `X = sqrt(exp(log(X) / T1))`.
For every element type `log(X)` is a `double` (an `int` argument is converted
to `double`), so `T1` is promoted and the quotient is a division of doubles;
the result is converted back to `T` by the assignment. -/
def module11_body {α : Type} (e : Elem α) (m : Cmath) (T1 : α) (X : α) : Option α :=
  e.ofDouble (m.sqrt (m.exp (Dbl.div (m.log (e.toDouble X)) (e.toDouble T1))))

/-- Module 11; the result is the final `X`. -/
def module11_standard_functions (longBits : Nat) {α : Type} (e : Elem α) (m : Cmath)
    (b : Bench α) : Option α := do
  let X ← e.ofDouble (Dbl.fin (3 / 4))
  loop (module11_body e m b.T1) (trips longBits 93 b.loop_count) X

/-- The container and every local at the end of `perform_benchmark`. -/
structure Final (α : Type) where
  E1 : List α
  m1 : Quad α
  m4 : Int
  m6 : Int × Int × Int
  m7 : α × α
  m8 : α × α × α
  m10 : Int × Int
  m11 : α

/-- The module sequence `perform_benchmark`. -/
def perform_benchmark (longBits : Nat) {α : Type} (e : Elem α) (m : Cmath) (b : Bench α) :
    Option (Final α) := do
  let x ← initQuad e.ofDouble 1 (-1) (-1) (-1)
  let q := module1_simple_identifiers e b x
  let E ← wrLit e.ofDouble b.E1 1 1
  let E ← wrLit e.ofDouble E 2 (-1)
  let E ← wrLit e.ofDouble E 3 (-1)
  let E ← wrLit e.ofDouble E 4 (-1)
  let E ← module2_array_elements longBits e { b with E1 := E }
  let E ← module3_array_as_parameter longBits e { b with E1 := E }
  let j4 := module4_conditional_jumps longBits b.loop_count
  let s6 ← module6_integer_arithmetic longBits e wrap32 { b with E1 := E }
  let xy ← module7_trigonometric_functions longBits e m b
  let xyz ← module8_procedure_calls longBits e b
  let E ← module9_array_references longBits e { b with E1 := s6.E1 }
  let jk := module10_integer_arithmetic wrap32 b.loop_count
  let x ← module11_standard_functions longBits e m b
  some ⟨E, q, j4, (s6.J, s6.K, s6.L), xy, xyz, jk, x⟩

/-! ## Output and `run` -/

/-- The exceptions `std::stol` throws. -/
inductive StolError where
  | invalid_argument
  | out_of_range
  deriving DecidableEq

/-- What is inserted into an output stream: a character of a string literal,
a `double`, or the text `e.what()` of a caught exception. -/
inductive Piece where
  | chr (c : Char)
  | dbl (d : Dbl)
  | what (x : StolError)
  deriving DecidableEq

/-- The pieces of a string literal. -/
def text (s : String) : List Piece := s.toList.map Piece.chr

/-- What `run` leaves behind: the state computed by `perform_benchmark` and
the text written to standard output. -/
structure RunResult (α : Type) where
  final : Final α
  out : List Piece

/-- The member function `run`; `start_time` and `end_time` are the two clock
readings, in seconds. -/
def run (longBits : Nat) {α : Type} (e : Elem α) (m : Cmath) (b : Bench α)
    (start_time end_time : ℚ) : Option (RunResult α) := do
  let final ← perform_benchmark longBits e m b
  let time_seconds := Dbl.fin (end_time - start_time)
  let kips := Dbl.div (Dbl.mul (Dbl.fin 100) (Dbl.fin b.loop_count)) time_seconds
  some ⟨final,
    text "Duration: " ++ [Piece.dbl time_seconds] ++ text " sec\n"
      ++ text "Performance: "
      ++ [Piece.dbl (if kips.ge (Dbl.fin 1000) then Dbl.div kips (Dbl.fin 1000) else kips)]
      ++ text (if kips.ge (Dbl.fin 1000) then " MIPS\n" else " KIPS\n")⟩

/-! ## `std::stol` and `main` -/

/-- The white space `strtol` skips (C locale). -/
def isspace (c : Char) : Bool :=
  c = ' ' || c = '\t' || c = '\n' || c = '\x0b' || c = '\x0c' || c = '\r'

/-- Drop leading white space. -/
def skipSpace : List Char → List Char
  | [] => []
  | c :: cs => if isspace c then skipSpace cs else c :: cs

/-- The value of a decimal digit. -/
def digitVal (c : Char) : Option Nat :=
  if '0' ≤ c ∧ c ≤ '9' then some (c.toNat - '0'.toNat) else none

/-- Read the longest run of decimal digits, accumulating its value. -/
def readDigits (acc : Nat) : List Char → Nat
  | [] => acc
  | c :: cs =>
    match digitVal c with
    | some d => readDigits (10 * acc + d) cs
    | none => acc

/-- The value of the digit sequence at the head of `s`, if there is one. -/
def magnitude (s : List Char) : Option Nat :=
  match s with
  | [] => none
  | c :: _ => if (digitVal c).isSome then some (readDigits 0 s) else none

/-- The integer a string denotes for `strtol` in base 10: white space, an
optional sign, then at least one digit; what follows the digits is ignored. -/
def numericValue (s : List Char) : Option Int :=
  match skipSpace s with
  | [] => none
  | c :: cs =>
    if c = '-' then (magnitude cs).map (fun n => -(n : Int))
    else if c = '+' then (magnitude cs).map (fun n => (n : Int))
    else (magnitude (c :: cs)).map (fun n => (n : Int))

/-- The library function `std::stol(str)` for a `long` of `longBits` bits. -/
def stol (longBits : Nat) (s : List Char) : Except StolError Int :=
  match numericValue s with
  | none => Except.error StolError.invalid_argument
  | some v =>
    if -2 ^ (longBits - 1) ≤ v ∧ v < 2 ^ (longBits - 1) then Except.ok v
    else Except.error StolError.out_of_range

/-- The three instantiations made by `main`. -/
inductive NumType where
  | int
  | float
  | double
  deriving DecidableEq

/-- What `main` does: its return value, the text on standard output and on
standard error, and the benchmark instances it constructed and ran, in order,
each with its loop count. -/
structure MainResult where
  status : Int
  out : List Piece
  err : List Piece
  ran : List (NumType × Int)

/-- The value of the macro `EXIT_FAILURE`. -/
def EXIT_FAILURE : Int := 1

/-- The argument handling at the start of `main`: the loop count, or the
result of the early return. -/
def parseArgs (longBits : Nat) (argv : List String) : Except MainResult Int :=
  match argv with
  | _ :: arg :: _ =>
    match stol longBits arg.toList with
    | Except.ok loop_count =>
      if loop_count ≤ 0 then
        Except.error ⟨EXIT_FAILURE, [], text "Error: Loop count must be positive.\n", []⟩
      else Except.ok loop_count
    | Except.error x =>
      Except.error ⟨EXIT_FAILURE, [], text "Invalid input: " ++ [Piece.what x] ++ text "\n", []⟩
  | _ => Except.ok 1000000

/-- The function `main`; `argv` includes the program name, and `clock t` is
the pair of clock readings taken by the run of instantiation `t`. -/
def main (longBits : Nat) (m : Cmath) (clock : NumType → ℚ × ℚ) (argv : List String) :
    Option MainResult :=
  match parseArgs longBits argv with
  | Except.error r => some r
  | Except.ok loop_count => do
    let int_benchmark ← WhetstoneBenchmark intElem loop_count
    let ri ← run longBits intElem m int_benchmark (clock NumType.int).1 (clock NumType.int).2
    let float_benchmark ← WhetstoneBenchmark realElem loop_count
    let rf ← run longBits realElem m float_benchmark (clock NumType.float).1 (clock NumType.float).2
    let double_benchmark ← WhetstoneBenchmark realElem loop_count
    let rd ← run longBits realElem m double_benchmark (clock NumType.double).1 (clock NumType.double).2
    some ⟨0,
      text "Running Whetstone Benchmark with int:\n" ++ ri.out
        ++ text "\nRunning Whetstone Benchmark with float:\n" ++ rf.out
        ++ text "\nRunning Whetstone Benchmark with double:\n" ++ rd.out,
      [],
      [(NumType.int, loop_count), (NumType.float, loop_count), (NumType.double, loop_count)]⟩

/-! ## Definitions used to state the properties -/

/-- The special values of the `<cmath>` functions that IEC 60559 (Annex F of
the C standard) fixes exactly and that the integer instantiation meets. -/
structure AnnexF (m : Cmath) : Prop where
  sin_zero : m.sin (Dbl.fin 0) = Dbl.fin 0
  cos_zero : m.cos (Dbl.fin 0) = Dbl.fin 1
  atan_zero : m.atan (Dbl.fin 0) = Dbl.fin 0
  log_zero : m.log (Dbl.fin 0) = Dbl.ninf
  exp_ninf : m.exp Dbl.ninf = Dbl.fin 0
  sqrt_zero : m.sqrt (Dbl.fin 0) = Dbl.fin 0

/-- A stand-in for `<cmath>`: first-order approximations of the six
functions, exact at the special values. -/
def linearCmath : Cmath where
  sin := fun d =>
    match d with
    | Dbl.fin q => Dbl.fin q
    | _ => Dbl.nan
  cos := fun d =>
    match d with
    | Dbl.fin _ => Dbl.fin 1
    | _ => Dbl.nan
  atan := fun d =>
    match d with
    | Dbl.fin q => Dbl.fin q
    | Dbl.pinf => Dbl.fin (11 / 7)
    | Dbl.ninf => Dbl.fin (-11 / 7)
    | Dbl.nan => Dbl.nan
  sqrt := fun d =>
    match d with
    | Dbl.fin q => if q < 0 then Dbl.nan else if q = 0 then Dbl.fin 0 else Dbl.fin ((q + 1) / 2)
    | Dbl.pinf => Dbl.pinf
    | _ => Dbl.nan
  exp := fun d =>
    match d with
    | Dbl.fin q => Dbl.fin (1 + q)
    | Dbl.pinf => Dbl.pinf
    | Dbl.ninf => Dbl.fin 0
    | Dbl.nan => Dbl.nan
  log := fun d =>
    match d with
    | Dbl.fin q => if q < 0 then Dbl.nan else if q = 0 then Dbl.ninf else Dbl.fin (q - 1)
    | Dbl.pinf => Dbl.pinf
    | _ => Dbl.nan

/-- The two container indices `L - 1` and `K - 1` written by iteration `i`
(counted from 0) of the loop of module 6. -/
def module6_indices (w : Int → Int) (i : Nat) : Int × Int :=
  let s := (module6_locals w)^[i + 1] (1, 2, 3)
  (w (s.2.2 - 1), w (s.2.1 - 1))

/-- An index lies within the bounds of the 5-element container. -/
def inBounds (i : Int) : Prop := 0 ≤ i ∧ i ≤ 4

instance instDecidableInBounds (i : Int) : Decidable (inBounds i) := by
  unfold inBounds
  infer_instance

/-- The values computed, in order, by one iteration of the loop of module 10:
`J + K`, `J + K`, `K - J`, `K - J` and `K - J - J`. -/
def module10_values (w : Int → Int) (s : Int × Int) : List Int :=
  let J := s.1
  let K := s.2
  let J1 := w (J + K)
  let K1 := w (J1 + K)
  let J2 := w (K1 - J1)
  let t := w (K1 - J2)
  let K2 := w (t - J2)
  [J1, K1, J2, t, K2]

/-- The text written by `run` for one instantiation of the template,
constructed with `loop_count`. -/
def runOutput (longBits : Nat) (t : NumType) (m : Cmath) (loop_count : Int)
    (start_time end_time : ℚ) : Option (List Piece) :=
  match t with
  | NumType.int =>
    ((WhetstoneBenchmark intElem loop_count).bind
      (fun b => run longBits intElem m b start_time end_time)).map (fun r => r.out)
  | _ =>
    ((WhetstoneBenchmark realElem loop_count).bind
      (fun b => run longBits realElem m b start_time end_time)).map (fun r => r.out)

/-- The state left by `perform_benchmark` in a run of the benchmark object
constructed with `loop_count`. -/
def runFinal (longBits : Nat) {α : Type} (e : Elem α) (m : Cmath) (loop_count : Int)
    (start_time end_time : ℚ) : Option (Final α) :=
  ((WhetstoneBenchmark e loop_count).bind
    (fun b => run longBits e m b start_time end_time)).map (fun r => r.final)

/-- A text made of the given lines, each ended by a newline. -/
def unlines : List (List Piece) → List Piece
  | [] => []
  | l :: ls => l ++ Piece.chr '\n' :: unlines ls

/-- The number of newline-terminated lines of a text. -/
def lineCount (out : List Piece) : Nat := out.count (Piece.chr '\n')

/-- The name of an instantiation as `main` prints it. -/
def typeName : NumType → String
  | NumType.int => "int"
  | NumType.float => "float"
  | NumType.double => "double"

/-- The header line `main` prints before a run. -/
def headerLine (t : NumType) : List Piece :=
  text "Running Whetstone Benchmark with " ++ text (typeName t) ++ text ":"

/-- The line `Duration: <seconds> sec`. -/
def durationLine (start_time end_time : ℚ) : List Piece :=
  text "Duration: " ++ [Piece.dbl (Dbl.fin (end_time - start_time))] ++ text " sec"

/-- The line `Performance: <value> <KIPS|MIPS>`. -/
def performanceLine (loop_count : Int) (start_time end_time : ℚ) : List Piece :=
  let kips := Dbl.div (Dbl.mul (Dbl.fin 100) (Dbl.fin loop_count))
    (Dbl.fin (end_time - start_time))
  text "Performance: "
    ++ [Piece.dbl (if kips.ge (Dbl.fin 1000) then Dbl.div kips (Dbl.fin 1000) else kips)]
    ++ text (if kips.ge (Dbl.fin 1000) then " MIPS" else " KIPS")

/-- The three lines of one instantiation: header, duration, performance. -/
def block (t : NumType) (loop_count : Int) (clock : NumType → ℚ × ℚ) : List (List Piece) :=
  [headerLine t, durationLine (clock t).1 (clock t).2,
    performanceLine loop_count (clock t).1 (clock t).2]

/-- The text `main` writes when the three runs complete: the three blocks,
with an empty line before the second and the third. -/
def mainOutput (loop_count : Int) (clock : NumType → ℚ × ℚ) : List Piece :=
  unlines (block NumType.int loop_count clock ++ [[]] ++ block NumType.float loop_count clock
    ++ [[]] ++ block NumType.double loop_count clock)

/-- The text of `run` with the given value and label in the performance line. -/
def reportText (duration value : ℚ) (label : String) : List Piece :=
  text "Duration: " ++ [Piece.dbl (Dbl.fin duration)] ++ text " sec\n"
    ++ text "Performance: " ++ [Piece.dbl (Dbl.fin value)] ++ text label

/-- The quotient `log(X) / T1` of module 11: `log(X)` is a `double` for every
element type, so `T1` is promoted and the division is a division of doubles. -/
def module11_quotient {α : Type} (e : Elem α) (m : Cmath) (T1 : α) (X : α) : Dbl :=
  Dbl.div (m.log (e.toDouble X)) (e.toDouble T1)

/-- The four assignments `E1[1] = 1.0; E1[2] = -1.0; E1[3] = -1.0; E1[4] = -1.0;`
that `perform_benchmark` makes before module 2. -/
def resetSlots {α : Type} (e : Elem α) (E : List α) : Option (List α) :=
  (wrLit e.ofDouble E 1 1).bind fun E =>
    (wrLit e.ofDouble E 2 (-1)).bind fun E =>
      (wrLit e.ofDouble E 3 (-1)).bind fun E => wrLit e.ofDouble E 4 (-1)

/-- Every value computed, in exact integer arithmetic, by one iteration of the
loop of module 6 started with the locals `s = (J, K, L)`: the subexpressions
and results of the three assignments, the two indices and the two stored
values. -/
def module6_values (s : Int × Int × Int) : List Int :=
  let J := s.1
  let K := s.2.1
  let L := s.2.2
  let J1 := J * (K - J) * (L - K)
  let K1 := L * K - (L - J1) * K
  let L1 := (L - K1) * (K1 + J1)
  [K - J, J * (K - J), L - K, J1, L * K, L - J1, (L - J1) * K, K1, L - K1, K1 + J1, L1,
    L1 - 1, J1 + K1, J1 + K1 + L1, K1 - 1, J1 * K1, J1 * K1 * L1]

/-! ## Auxiliary facts -/

theorem wrap32_emod (x : Int) : wrap32 x % 2 ^ 32 = x % 2 ^ 32 := by
  unfold wrap32
  omega

theorem wrap32_congr {a b : Int} (h : a % 2 ^ 32 = b % 2 ^ 32) : wrap32 a = wrap32 b := by
  unfold wrap32
  omega

theorem wrap32_of_range {x : Int} (h0 : -2 ^ 31 ≤ x) (h1 : x < 2 ^ 31) : wrap32 x = x := by
  unfold wrap32
  omega

theorem module10_body_exact (j k : Int) : module10_body id (j, k) = (k, j) := by
  simp [module10_body]

theorem module10_body_wrap (j k : Int) :
    module10_body wrap32 (wrap32 j, wrap32 k) = (wrap32 k, wrap32 j) := by
  have h1 := wrap32_emod j
  have h2 := wrap32_emod k
  have h3 := wrap32_emod (wrap32 j + wrap32 k)
  have h4 := wrap32_emod (wrap32 (wrap32 j + wrap32 k) + wrap32 k)
  have h5 := wrap32_emod (wrap32 (wrap32 (wrap32 j + wrap32 k) + wrap32 k)
    - wrap32 (wrap32 j + wrap32 k))
  have h6 := wrap32_emod (wrap32 (wrap32 (wrap32 j + wrap32 k) + wrap32 k)
    - wrap32 (wrap32 (wrap32 (wrap32 j + wrap32 k) + wrap32 k) - wrap32 (wrap32 j + wrap32 k)))
  simp only [module10_body, Prod.mk.injEq]
  constructor
  · apply wrap32_congr
    omega
  · apply wrap32_congr
    omega

theorem wrap32_two : wrap32 2 = 2 := by decide
theorem wrap32_three : wrap32 3 = 3 := by decide

theorem module10_iterate (w : Int → Int) (h23 : module10_body w (2, 3) = (3, 2))
    (h32 : module10_body w (3, 2) = (2, 3)) (n : Nat) :
    (module10_body w)^[2 * n] (2, 3) = (2, 3) ∧ (module10_body w)^[2 * n + 1] (2, 3) = (3, 2) := by
  induction n with
  | zero => exact ⟨rfl, by simpa using h23⟩
  | succ n ih =>
    have e1 : 2 * (n + 1) = (2 * n + 1) + 1 := by ring
    have h1 : (module10_body w)^[2 * (n + 1)] (2, 3) = (2, 3) := by
      rw [e1, Function.iterate_succ_apply', ih.2, h32]
    refine ⟨h1, ?_⟩
    rw [Function.iterate_succ_apply', h1, h23]

theorem module10_wrap_23 : module10_body wrap32 (2, 3) = (3, 2) := by
  have := module10_body_wrap 2 3
  rwa [wrap32_two, wrap32_three] at this

theorem module10_wrap_32 : module10_body wrap32 (3, 2) = (2, 3) := by
  have := module10_body_wrap 3 2
  rwa [wrap32_two, wrap32_three] at this

theorem module10_state (w : Int → Int) (h23 : module10_body w (2, 3) = (3, 2))
    (h32 : module10_body w (3, 2) = (2, 3)) (n : Nat) :
    (module10_body w)^[n] (2, 3) = (2, 3) ∨ (module10_body w)^[n] (2, 3) = (3, 2) := by
  rcases Nat.even_or_odd' n with ⟨k, rfl | rfl⟩
  · exact Or.inl (module10_iterate w h23 h32 k).1
  · exact Or.inr (module10_iterate w h23 h32 k).2

theorem module4_body_one : module4_body 1 = 0 := by decide

theorem module4_body_zero : module4_body 0 = 1 := by decide

theorem module4_iterate (n : Nat) :
    module4_body^[2 * n] 1 = 1 ∧ module4_body^[2 * n + 1] 1 = 0 := by
  induction n with
  | zero => exact ⟨rfl, by simpa using module4_body_one⟩
  | succ n ih =>
    have e1 : 2 * (n + 1) = (2 * n + 1) + 1 := by ring
    have h1 : module4_body^[2 * (n + 1)] 1 = 1 := by
      rw [e1, Function.iterate_succ_apply', ih.2, module4_body_zero]
    refine ⟨h1, ?_⟩
    rw [Function.iterate_succ_apply', h1, module4_body_one]

theorem module6_locals_fixed : module6_locals wrap32 (1, 2, 3) = (1, 2, 3) := by decide

theorem module6_locals_iterate (n : Nat) : (module6_locals wrap32)^[n] (1, 2, 3) = (1, 2, 3) := by
  induction n with
  | zero => rfl
  | succ n ih => rw [Function.iterate_succ_apply', ih, module6_locals_fixed]

theorem linearCmath_annexF : AnnexF linearCmath := by
  constructor <;> simp [linearCmath]

theorem truncQ_of_unit {q : ℚ} (h0 : 0 ≤ q) (h1 : q < 1) : truncQ q = 0 := by
  unfold truncQ
  rw [if_pos h0]
  exact Int.floor_eq_zero_iff.mpr ⟨h0, h1⟩

theorem truncQ_intCast (z : Int) : truncQ (z : ℚ) = z := by
  unfold truncQ
  split
  · exact Int.floor_intCast z
  · exact Int.ceil_intCast z

theorem intElem_ofDouble_unit {q : ℚ} (h0 : 0 ≤ q) (h1 : q < 1) :
    intElem.ofDouble (Dbl.fin q) = some 0 := by
  simp [intElem, truncQ_of_unit h0 h1]

theorem intElem_ofDouble_int (z : Int) (h0 : -2 ^ 31 ≤ z) (h1 : z < 2 ^ 31) :
    intElem.ofDouble (Dbl.fin (z : ℚ)) = some z := by
  simp only [intElem, truncQ_intCast]
  rw [if_pos ⟨h0, h1⟩]

theorem intElem_ofDouble_zero : intElem.ofDouble (Dbl.fin 0) = some 0 :=
  intElem_ofDouble_unit (le_refl 0) (by norm_num)

theorem intElem_ofDouble_one : intElem.ofDouble (Dbl.fin 1) = some 1 := by
  simpa using intElem_ofDouble_int 1 (by norm_num) (by norm_num)

theorem intElem_ofDouble_neg_one : intElem.ofDouble (Dbl.fin (-1)) = some (-1) := by
  simpa using intElem_ofDouble_int (-1) (by norm_num) (by norm_num)

theorem intElem_ofDouble_two : intElem.ofDouble (Dbl.fin 2) = some 2 := by
  simpa using intElem_ofDouble_int 2 (by norm_num) (by norm_num)

theorem intElem_ofDouble_three : intElem.ofDouble (Dbl.fin 3) = some 3 := by
  simpa using intElem_ofDouble_int 3 (by norm_num) (by norm_num)

theorem wrap32_zero : wrap32 0 = 0 := by decide

theorem module7_rhs_int {m : Cmath} (hm : AnnexF m) :
    module7_rhs intElem m 0 2 0 0 0 = Dbl.fin 0 := by
  simp [module7_rhs, intElem, wrap32_zero, hm.sin_zero, hm.cos_zero, hm.atan_zero, Dbl.mul,
    Dbl.add, Dbl.sub, Dbl.neg, Dbl.div]

theorem module7_body_int {m : Cmath} (hm : AnnexF m) :
    module7_body intElem m 0 2 (0, 0) = some (0, 0) := by
  simp [module7_body, module7_rhs_int hm, intElem_ofDouble_zero]

theorem module11_body_int {m : Cmath} (hm : AnnexF m) :
    module11_body intElem m 0 0 = some 0 := by
  have h : intElem.toDouble 0 = Dbl.fin 0 := by simp [intElem]
  simp [module11_body, h, hm.log_zero, hm.exp_ninf, hm.sqrt_zero, Dbl.div, Dbl.signedInf,
    intElem_ofDouble_zero]

theorem loop_fixed {σ : Type} (body : σ → Option σ) (s : σ) (h : body s = some s) (n : Nat) :
    loop body n s = some s := by
  induction n with
  | zero => rfl
  | succ n ih => simp [loop, h, ih]

theorem WhetstoneBenchmark_int (loop_count : Int) :
    WhetstoneBenchmark intElem loop_count = some ⟨loop_count, [0, 0, 0, 0, 0], 0, 0, 2⟩ := by
  have h1 : intElem.ofDouble (Dbl.fin (499975 / 1000000)) = some 0 :=
    intElem_ofDouble_unit (by norm_num) (by norm_num)
  have h2 : intElem.ofDouble (Dbl.fin (50025 / 100000)) = some 0 :=
    intElem_ofDouble_unit (by norm_num) (by norm_num)
  simp [WhetstoneBenchmark, h1, h2, intElem_ofDouble_two]
  rfl

theorem WhetstoneBenchmark_real (loop_count : Int) :
    WhetstoneBenchmark realElem loop_count = some ⟨loop_count,
      [Dbl.fin 0, Dbl.fin 0, Dbl.fin 0, Dbl.fin 0, Dbl.fin 0],
      Dbl.fin (499975 / 1000000), Dbl.fin (50025 / 100000), Dbl.fin 2⟩ := by
  simp [WhetstoneBenchmark, realElem]

theorem module7_int (longBits : Nat) {m : Cmath} (hm : AnnexF m) (b : Bench Int) (h0 : b.T_ = 0) (h2 : b.T2 = 2) :
    module7_trigonometric_functions longBits intElem m b = some (0, 0) := by
  have h : intElem.ofDouble (Dbl.fin (1 / 2)) = some 0 :=
    intElem_ofDouble_unit (by norm_num) (by norm_num)
  simp only [module7_trigonometric_functions, h, h0, h2, Option.bind_eq_bind, Option.some_bind,
    loop_fixed _ _ (module7_body_int hm)]

theorem module11_int (longBits : Nat) {m : Cmath} (hm : AnnexF m) (b : Bench Int) (h1 : b.T1 = 0) :
    module11_standard_functions longBits intElem m b = some 0 := by
  have h : intElem.ofDouble (Dbl.fin (3 / 4)) = some 0 :=
    intElem_ofDouble_unit (by norm_num) (by norm_num)
  simp only [module11_standard_functions, h, h1, Option.bind_eq_bind, Option.some_bind,
    loop_fixed _ _ (module11_body_int hm)]

theorem loop_total {σ : Type} (body : σ → Option σ) (h : ∀ s, ∃ s', body s = some s')
    (n : Nat) (s : σ) : ∃ s', loop body n s = some s' := by
  induction n generalizing s with
  | zero => exact ⟨s, rfl⟩
  | succ n ih =>
    obtain ⟨s1, h1⟩ := h s
    obtain ⟨s2, h2⟩ := ih s1
    exact ⟨s2, by simp [loop, h1, h2]⟩

theorem module7_real (longBits : Nat) (m : Cmath) (b : Bench Dbl) :
    ∃ r, module7_trigonometric_functions longBits realElem m b = some r := by
  have h : ∀ s, ∃ s', module7_body realElem m b.T_ b.T2 s = some s' := by
    intro s
    simp [module7_body, realElem]
  obtain ⟨r, hr⟩ := loop_total _ h (trips longBits 32 b.loop_count) (Dbl.fin (1 / 2), Dbl.fin (1 / 2))
  exact ⟨r, by simpa [module7_trigonometric_functions, realElem] using hr⟩

theorem module11_real (longBits : Nat) (m : Cmath) (b : Bench Dbl) :
    ∃ r, module11_standard_functions longBits realElem m b = some r := by
  have h : ∀ s, ∃ s', module11_body realElem m b.T1 s = some s' := by
    intro s
    simp [module11_body, realElem]
  obtain ⟨r, hr⟩ := loop_total _ h (trips longBits 93 b.loop_count) (Dbl.fin (3 / 4))
  exact ⟨r, by simpa [module11_standard_functions, realElem] using hr⟩

theorem loop_invariant {σ : Type} (P : σ → Prop) (body : σ → Option σ)
    (h : ∀ s, P s → ∃ s', body s = some s' ∧ P s') :
    ∀ (n : Nat) (s : σ), P s → ∃ s', loop body n s = some s' ∧ P s' := by
  intro n
  induction n with
  | zero => exact fun s hs => ⟨s, rfl, hs⟩
  | succ n ih =>
    intro s hs
    obtain ⟨s1, h1, hp1⟩ := h s hs
    obtain ⟨s2, h2, hp2⟩ := ih s1 hp1
    exact ⟨s2, by simp [loop, h1, h2], hp2⟩

theorem length_five {α : Type} {E : List α} (h : E.length = 5) :
    ∃ x0 x1 x2 x3 x4, E = [x0, x1, x2, x3, x4] := by
  match E, h with
  | [x0, x1, x2, x3, x4], _ => exact ⟨x0, x1, x2, x3, x4, rfl⟩

theorem module2_body_length {α : Type} (e : Elem α) (T_ : α) (E : List α) (h : E.length = 5) :
    ∃ E', module2_body e T_ E = some E' ∧ E'.length = 5 := by
  obtain ⟨x0, x1, x2, x3, x4, rfl⟩ := length_five h
  simp [module2_body, withSlots, rd, wr]

theorem PA_length {α : Type} (e : Elem α) (T_ : α) (E : List α) (h : E.length = 5) :
    ∃ E', PA e T_ E = some E' ∧ E'.length = 5 := by
  obtain ⟨x0, x1, x2, x3, x4, rfl⟩ := length_five h
  simp [PA, withSlots, rd, wr]

theorem P0_length {α : Type} (E : List α) (h : E.length = 5) :
    ∃ E', P0 E = some E' ∧ E'.length = 5 := by
  obtain ⟨x0, x1, x2, x3, x4, rfl⟩ := length_five h
  simp [P0, rd, wr]

theorem wr_length {α : Type} (E : List α) (i : Nat) (v : α) (h : E.length = 5) (hi : i < 5) :
    ∃ E', wr E i v = some E' ∧ E'.length = 5 := by
  refine ⟨E.set i v, ?_, by simpa using h⟩
  simp [wr, h, hi]

theorem module6_body_fixed {α : Type} (e : Elem α) (s : M6 α)
    (h : (s.J = 1 ∧ s.K = 2 ∧ s.L = 3) ∧ s.E1.length = 5) :
    ∃ s', module6_body e wrap32 s = some s' ∧ ((s'.J = 1 ∧ s'.K = 2 ∧ s'.L = 3) ∧ s'.E1.length = 5) := by
  obtain ⟨⟨hJ, hK, hL⟩, hlen⟩ := h
  obtain ⟨x0, x1, x2, x3, x4, hE⟩ := length_five hlen
  have h1 : wrap32 1 = 1 := by decide
  have h2 : wrap32 2 = 2 := by decide
  have h3 : wrap32 3 = 3 := by decide
  have h6 : wrap32 6 = 6 := by decide
  simp [module6_body, hJ, hK, hL, module6_locals_fixed, hE, wrAt, wr, h1, h2, h3, h6]

theorem wrLit_length {α : Type} (e : Elem α) (E : List α) (i : Nat) (x : ℚ) (v : α)
    (hv : e.ofDouble (Dbl.fin x) = some v) (h : E.length = 5) (hi : i < 5) :
    ∃ E', wrLit e.ofDouble E i x = some E' ∧ E'.length = 5 := by
  obtain ⟨E', h1, h2⟩ := wr_length E i v h hi
  exact ⟨E', by simp [wrLit, hv, h1], h2⟩

theorem module2_length (longBits : Nat) {α : Type} (e : Elem α) (b : Bench α) (h : b.E1.length = 5) :
    ∃ E', module2_array_elements longBits e b = some E' ∧ E'.length = 5 :=
  loop_invariant (fun E : List α => E.length = 5) (module2_body e b.T_)
    (module2_body_length e b.T_) (trips longBits 12 b.loop_count) b.E1 h

theorem module3_length (longBits : Nat) {α : Type} (e : Elem α) (b : Bench α) (h : b.E1.length = 5) :
    ∃ E', module3_array_as_parameter longBits e b = some E' ∧ E'.length = 5 :=
  loop_invariant (fun E : List α => E.length = 5) (PA e b.T_)
    (PA_length e b.T_) (trips longBits 14 b.loop_count) b.E1 h

theorem module6_fixed (longBits : Nat) {α : Type} (e : Elem α) (b : Bench α) (h : b.E1.length = 5) :
    ∃ s, module6_integer_arithmetic longBits e wrap32 b = some s ∧
      ((s.J = 1 ∧ s.K = 2 ∧ s.L = 3) ∧ s.E1.length = 5) :=
  loop_invariant (fun s : M6 α => (s.J = 1 ∧ s.K = 2 ∧ s.L = 3) ∧ s.E1.length = 5) _
    (module6_body_fixed e) _ _ ⟨⟨rfl, rfl, rfl⟩, h⟩

theorem module9_length (longBits : Nat) {α : Type} (e : Elem α) (b : Bench α) (v1 v2 v3 : α)
    (h1 : e.ofDouble (Dbl.fin 1) = some v1) (h2 : e.ofDouble (Dbl.fin 2) = some v2)
    (h3 : e.ofDouble (Dbl.fin 3) = some v3) (h : b.E1.length = 5) :
    ∃ E', module9_array_references longBits e b = some E' ∧ E'.length = 5 := by
  obtain ⟨Ea, ha, la⟩ := wrLit_length e b.E1 1 1 v1 h1 h (by norm_num)
  obtain ⟨Eb, hb, lb⟩ := wrLit_length e Ea 2 2 v2 h2 la (by norm_num)
  obtain ⟨Ec, hc, lc⟩ := wrLit_length e Eb 3 3 v3 h3 lb (by norm_num)
  obtain ⟨Ed, hd, ld⟩ := loop_invariant (fun E : List α => E.length = 5) P0 P0_length
    (trips longBits 616 b.loop_count) Ec lc
  exact ⟨Ed, by simp [module9_array_references, ha, hb, hc, hd], ld⟩

/-- The element type converts every literal of `perform_benchmark`, and modules 7, 8
and 11 run to completion. -/
theorem perform_benchmark_some (longBits : Nat) {α : Type} (e : Elem α) (m : Cmath) (b : Bench α)
    (hlen : b.E1.length = 5) (v1 vm v2 v3 : α)
    (h1 : e.ofDouble (Dbl.fin 1) = some v1) (hm : e.ofDouble (Dbl.fin (-1)) = some vm)
    (h2 : e.ofDouble (Dbl.fin 2) = some v2) (h3 : e.ofDouble (Dbl.fin 3) = some v3)
    (h7 : ∃ r, module7_trigonometric_functions longBits e m b = some r)
    (h11 : ∃ r, module11_standard_functions longBits e m b = some r) :
    ∃ f, perform_benchmark longBits e m b = some f ∧ f.E1.length = 5 := by
  obtain ⟨r7, h7⟩ := h7
  obtain ⟨r11, h11⟩ := h11
  have hq : initQuad e.ofDouble 1 (-1) (-1) (-1) = some ⟨v1, vm, vm, vm⟩ := by
    simp [initQuad, h1, hm]
  obtain ⟨Ea, ha, la⟩ := wrLit_length e b.E1 1 1 v1 h1 hlen (by norm_num)
  obtain ⟨Eb, hb, lb⟩ := wrLit_length e Ea 2 (-1) vm hm la (by norm_num)
  obtain ⟨Ec, hc, lc⟩ := wrLit_length e Eb 3 (-1) vm hm lb (by norm_num)
  obtain ⟨Ed, hd, ld⟩ := wrLit_length e Ec 4 (-1) vm hm lc (by norm_num)
  obtain ⟨Ee, he, le⟩ := module2_length longBits e { b with E1 := Ed } ld
  obtain ⟨Ef, hf, lf⟩ := module3_length longBits e { b with E1 := Ee } le
  obtain ⟨s6, h6, -, l6⟩ := module6_fixed longBits e { b with E1 := Ef } lf
  obtain ⟨Eg, hg, lg⟩ := module9_length longBits e { b with E1 := s6.E1 } v1 v2 v3 h1 h2 h3 l6
  obtain ⟨r8, h8⟩ : ∃ r, module8_procedure_calls longBits e b = some r := by
    simp [module8_procedure_calls, h1]
  have key : perform_benchmark longBits e m b = some ⟨Eg, module1_simple_identifiers e b ⟨v1, vm, vm, vm⟩,
      module4_conditional_jumps longBits b.loop_count, (s6.J, s6.K, s6.L), r7, r8,
      module10_integer_arithmetic wrap32 b.loop_count, r11⟩ := by
    simp only [perform_benchmark, hq, ha, hb, hc, hd, he, hf, h6, h7, h8, hg, h11,
      Option.bind_eq_bind, Option.some_bind, Option.pure_def]
  exact ⟨_, key, lg⟩

/-- The text of `run`, as a function of the loop count and the clock readings. -/
theorem run_of_some (longBits : Nat) {α : Type} (e : Elem α) (m : Cmath) (b : Bench α) (f : Final α)
    (start_time end_time : ℚ) (h : perform_benchmark longBits e m b = some f) :
    run longBits e m b start_time end_time = some ⟨f,
      unlines [durationLine start_time end_time,
        performanceLine b.loop_count start_time end_time]⟩ := by
  simp only [run, h, Option.bind_eq_bind, Option.some_bind, Option.pure_def, unlines,
    durationLine, performanceLine]
  cases Dbl.ge (Dbl.div (Dbl.mul (Dbl.fin 100) (Dbl.fin b.loop_count))
    (Dbl.fin (end_time - start_time))) (Dbl.fin 1000) <;> rfl

theorem perform_benchmark_int (longBits : Nat) {m : Cmath} (hm : AnnexF m) (loop_count : Int) :
    ∃ f, perform_benchmark longBits intElem m ⟨loop_count, [0, 0, 0, 0, 0], 0, 0, 2⟩ = some f ∧
      f.E1.length = 5 :=
  perform_benchmark_some longBits intElem m _ rfl 1 (-1) 2 3 intElem_ofDouble_one
    intElem_ofDouble_neg_one intElem_ofDouble_two intElem_ofDouble_three
    ⟨_, module7_int longBits hm _ rfl rfl⟩ ⟨_, module11_int longBits hm _ rfl⟩

theorem perform_benchmark_real (longBits : Nat) (m : Cmath) (b : Bench Dbl) (h : b.E1.length = 5) :
    ∃ f, perform_benchmark longBits realElem m b = some f ∧ f.E1.length = 5 :=
  perform_benchmark_some longBits realElem m b h (Dbl.fin 1) (Dbl.fin (-1)) (Dbl.fin 2) (Dbl.fin 3)
    rfl rfl rfl rfl (module7_real longBits m b) (module11_real longBits m b)

theorem runOutput_eq (longBits : Nat) {m : Cmath} (hm : AnnexF m) (t : NumType) (loop_count : Int)
    (start_time end_time : ℚ) :
    runOutput longBits t m loop_count start_time end_time =
      some (unlines [durationLine start_time end_time,
        performanceLine loop_count start_time end_time]) := by
  cases t
  · obtain ⟨f, hf, -⟩ := perform_benchmark_int longBits hm loop_count
    simp only [runOutput, WhetstoneBenchmark_int, Option.some_bind,
      run_of_some longBits _ _ _ _ _ _ hf, Option.map_some']
  · obtain ⟨f, hf, -⟩ := perform_benchmark_real longBits m _ (rfl : (Bench.mk loop_count
      [Dbl.fin 0, Dbl.fin 0, Dbl.fin 0, Dbl.fin 0, Dbl.fin 0]
      (Dbl.fin (499975 / 1000000)) (Dbl.fin (50025 / 100000)) (Dbl.fin 2)).E1.length = 5)
    simp only [runOutput, WhetstoneBenchmark_real, Option.some_bind,
      run_of_some longBits _ _ _ _ _ _ hf, Option.map_some']
  · obtain ⟨f, hf, -⟩ := perform_benchmark_real longBits m _ (rfl : (Bench.mk loop_count
      [Dbl.fin 0, Dbl.fin 0, Dbl.fin 0, Dbl.fin 0, Dbl.fin 0]
      (Dbl.fin (499975 / 1000000)) (Dbl.fin (50025 / 100000)) (Dbl.fin 2)).E1.length = 5)
    simp only [runOutput, WhetstoneBenchmark_real, Option.some_bind,
      run_of_some longBits _ _ _ _ _ _ hf, Option.map_some']

theorem main_of_parsed {m : Cmath} (hm : AnnexF m) (longBits : Nat) (clock : NumType → ℚ × ℚ)
    (argv : List String) (loop_count : Int) (h : parseArgs longBits argv = Except.ok loop_count) :
    main longBits m clock argv = some ⟨0, mainOutput loop_count clock, [],
      [(NumType.int, loop_count), (NumType.float, loop_count), (NumType.double, loop_count)]⟩ := by
  obtain ⟨fi, hi, -⟩ := perform_benchmark_int longBits hm loop_count
  obtain ⟨fr, hr, -⟩ := perform_benchmark_real longBits m _ (rfl : (Bench.mk loop_count
      [Dbl.fin 0, Dbl.fin 0, Dbl.fin 0, Dbl.fin 0, Dbl.fin 0]
      (Dbl.fin (499975 / 1000000)) (Dbl.fin (50025 / 100000)) (Dbl.fin 2)).E1.length = 5)
  simp only [main, h, WhetstoneBenchmark_int, WhetstoneBenchmark_real, Option.bind_eq_bind,
    Option.some_bind, run_of_some longBits _ _ _ _ _ _ hi, run_of_some longBits _ _ _ _ _ _ hr, Option.pure_def,
    mainOutput, block, unlines, performanceLine, durationLine, headerLine]
  cases Dbl.ge (Dbl.div (Dbl.mul (Dbl.fin 100) (Dbl.fin loop_count))
    (Dbl.fin ((clock NumType.int).2 - (clock NumType.int).1))) (Dbl.fin 1000) <;>
  cases Dbl.ge (Dbl.div (Dbl.mul (Dbl.fin 100) (Dbl.fin loop_count))
    (Dbl.fin ((clock NumType.float).2 - (clock NumType.float).1))) (Dbl.fin 1000) <;>
  cases Dbl.ge (Dbl.div (Dbl.mul (Dbl.fin 100) (Dbl.fin loop_count))
    (Dbl.fin ((clock NumType.double).2 - (clock NumType.double).1))) (Dbl.fin 1000) <;>
  rfl

theorem reportText_label_ne (d v v' : ℚ) : reportText d v " MIPS\n" ≠ reportText d v' " KIPS\n" := by
  intro h
  simp only [reportText, List.append_assoc] at h
  have h1 := List.append_cancel_left h
  simp only [List.singleton_append, List.cons.injEq] at h1
  have h2 := List.append_cancel_left h1.2
  have h3 := List.append_cancel_left h2
  simp only [List.singleton_append, List.cons.injEq] at h3
  have h4 := h3.2
  revert h4
  decide

theorem report_mips (loop_count : Int) (s t : ℚ) (hd : s < t)
    (h : 1000 ≤ 100 * (loop_count : ℚ) / (t - s)) :
    unlines [durationLine s t, performanceLine loop_count s t] =
      reportText (t - s) (100 * (loop_count : ℚ) / (t - s) / 1000) " MIPS\n" := by
  have hne : t - s ≠ 0 := by linarith
  simp only [unlines, durationLine, performanceLine, reportText, Dbl.mul, Dbl.div, if_neg hne,
    Dbl.ge, decide_eq_true h, if_true]
  norm_num
  rfl

theorem report_kips (loop_count : Int) (s t : ℚ) (hd : s < t)
    (h : 100 * (loop_count : ℚ) / (t - s) < 1000) :
    unlines [durationLine s t, performanceLine loop_count s t] =
      reportText (t - s) (100 * (loop_count : ℚ) / (t - s)) " KIPS\n" := by
  have hne : t - s ≠ 0 := by linarith
  have h' : ¬ 1000 ≤ 100 * (loop_count : ℚ) / (t - s) := not_le.mpr h
  simp only [unlines, durationLine, performanceLine, reportText, Dbl.mul, Dbl.div, if_neg hne,
    Dbl.ge, decide_eq_false h']
  norm_num
  rfl

theorem lineCount_unlines (ls : List (List Piece)) (h : ∀ l ∈ ls, Piece.chr '\n' ∉ l) :
    lineCount (unlines ls) = ls.length := by
  induction ls with
  | nil => rfl
  | cons l ls ih =>
    have h1 : List.count (Piece.chr '\n') l = 0 :=
      List.count_eq_zero.mpr (h l (List.mem_cons_self l ls))
    have h2 := ih (fun l' hl' => h l' (List.mem_cons_of_mem l hl'))
    simp only [lineCount] at h2
    simp only [unlines, lineCount, List.count_append, List.count_cons_self, h1, h2,
      List.length_cons]
    omega

theorem headerLine_no_newline (t : NumType) : Piece.chr '\n' ∉ headerLine t := by
  cases t <;> decide

theorem durationLine_no_newline (s t : ℚ) : Piece.chr '\n' ∉ durationLine s t := by
  simp [durationLine, text]

theorem performanceLine_no_newline (loop_count : Int) (s t : ℚ) :
    Piece.chr '\n' ∉ performanceLine loop_count s t := by
  simp only [performanceLine]
  cases Dbl.ge (Dbl.div (Dbl.mul (Dbl.fin 100) (Dbl.fin loop_count)) (Dbl.fin (t - s)))
    (Dbl.fin 1000) <;> simp [text]

theorem block_no_newline (t : NumType) (loop_count : Int) (clock : NumType → ℚ × ℚ) :
    ∀ l ∈ block t loop_count clock, Piece.chr '\n' ∉ l := by
  intro l hl
  simp only [block, List.mem_cons, List.mem_singleton, List.not_mem_nil, or_false] at hl
  rcases hl with rfl | rfl | rfl
  · exact headerLine_no_newline t
  · exact durationLine_no_newline _ _
  · exact performanceLine_no_newline _ _ _

theorem mainLines_no_newline (loop_count : Int) (clock : NumType → ℚ × ℚ) :
    ∀ l ∈ block NumType.int loop_count clock ++ [[]] ++ block NumType.float loop_count clock
      ++ [[]] ++ block NumType.double loop_count clock, Piece.chr '\n' ∉ l := by
  intro l hl
  simp only [List.mem_append, List.mem_singleton] at hl
  rcases hl with (((hl | rfl) | hl) | rfl) | hl
  · exact block_no_newline _ _ _ l hl
  · simp
  · exact block_no_newline _ _ _ l hl
  · simp
  · exact block_no_newline _ _ _ l hl

theorem nineLines_no_newline (loop_count : Int) (clock : NumType → ℚ × ℚ) :
    ∀ l ∈ block NumType.int loop_count clock ++ block NumType.float loop_count clock
      ++ block NumType.double loop_count clock, Piece.chr '\n' ∉ l := by
  intro l hl
  simp only [List.mem_append] at hl
  rcases hl with (hl | hl) | hl <;> exact block_no_newline _ _ _ l hl

theorem parseArgs_ok (longBits : Nat) (prog arg : String) (rest : List String) (loop_count : Int)
    (h : stol longBits arg.toList = Except.ok loop_count) (hp : 0 < loop_count) :
    parseArgs longBits (prog :: arg :: rest) = Except.ok loop_count := by
  simp only [parseArgs, h, if_neg (not_le.mpr hp)]

theorem loop_succ {σ : Type} (body : σ → Option σ) (n : Nat) (s : σ) :
    loop body (n + 1) s = (body s).bind (loop body n) := rfl

theorem loop_module2_eq {α : Type} (e : Elem α) (T_ : α) (n : Nat) :
    ∀ x0 a b c d : α, loop (module2_body e T_) n [x0, a, b, c, d] =
      some [x0, ((module1_body e T_)^[n] ⟨a, b, c, d⟩).X1,
        ((module1_body e T_)^[n] ⟨a, b, c, d⟩).X2,
        ((module1_body e T_)^[n] ⟨a, b, c, d⟩).X3,
        ((module1_body e T_)^[n] ⟨a, b, c, d⟩).X4] := by
  induction n with
  | zero => intro x0 a b c d; rfl
  | succ n ih =>
    intro x0 a b c d
    have hb : module2_body e T_ [x0, a, b, c, d] =
        some [x0, (module1_body e T_ ⟨a, b, c, d⟩).X1, (module1_body e T_ ⟨a, b, c, d⟩).X2,
          (module1_body e T_ ⟨a, b, c, d⟩).X3, (module1_body e T_ ⟨a, b, c, d⟩).X4] := by
      simp [module2_body, withSlots, rd, wr, module1_body]
    rw [loop_succ, hb, Option.some_bind, ih, Function.iterate_succ_apply]

theorem PA_eq {α : Type} (e : Elem α) (T_ x0 a b c d : α) :
    PA e T_ [x0, a, b, c, d] = some [x0, e.mul (e.sub (e.add (e.add a b) c) d) T_, b, c, d] := by
  simp [PA, withSlots, rd, wr]

theorem loop_PA_frame {α : Type} (e : Elem α) (T_ : α) (n : Nat) :
    ∀ x0 a b c d : α, ∃ y, loop (PA e T_) n [x0, a, b, c, d] = some [x0, y, b, c, d] := by
  induction n with
  | zero => exact fun x0 a b c d => ⟨a, rfl⟩
  | succ n ih =>
    intro x0 a b c d
    obtain ⟨y, hy⟩ := ih x0 (e.mul (e.sub (e.add (e.add a b) c) d) T_) b c d
    exact ⟨y, by rw [loop_succ, PA_eq, Option.some_bind, hy]⟩

theorem P0_eq {α : Type} (x0 a b c x4 : α) : P0 [x0, a, b, c, x4] = some [x0, b, a, b, x4] := by
  simp [P0, rd, wr]

theorem loop_P0_parity {α : Type} (x0 a b c x4 : α) (k : Nat) :
    loop P0 (2 * k + 1) [x0, a, b, c, x4] = some [x0, b, a, b, x4] ∧
    loop P0 (2 * k + 2) [x0, a, b, c, x4] = some [x0, a, b, a, x4] := by
  induction k generalizing a b c with
  | zero =>
    refine ⟨?_, ?_⟩
    · rw [loop_succ, P0_eq, Option.some_bind]; rfl
    · rw [loop_succ, P0_eq, Option.some_bind, loop_succ, P0_eq, Option.some_bind]; rfl
  | succ k ih =>
    have e1 : 2 * (k + 1) + 1 = (2 * k + 2) + 1 := by ring
    have e2 : 2 * (k + 1) + 2 = ((2 * k + 2) + 1) + 1 := by ring
    refine ⟨?_, ?_⟩
    · rw [e1, loop_succ, P0_eq, Option.some_bind, (ih b a b).2]
    · rw [e2, loop_succ, P0_eq, Option.some_bind, loop_succ, P0_eq, Option.some_bind,
        (ih a b a).2]

theorem wrap32_one : wrap32 1 = 1 := by decide
theorem wrap32_six : wrap32 6 = 6 := by decide

theorem module6_body_first {α : Type} (e : Elem α) (x0 x1 x2 x3 x4 : α) :
    module6_body e wrap32 ⟨1, 2, 3, [x0, x1, x2, x3, x4]⟩ =
      some ⟨1, 2, 3, [x0, e.ofInt 6, e.ofInt 6, x3, x4]⟩ := by
  simp [module6_body, module6_locals_fixed, wrAt, wr, wrap32_one, wrap32_two, wrap32_three,
    wrap32_six]

theorem loop_module6 {α : Type} (e : Elem α) (x0 x1 x2 x3 x4 : α) (n : Nat) :
    loop (module6_body e wrap32) (n + 1) ⟨1, 2, 3, [x0, x1, x2, x3, x4]⟩ =
      some ⟨1, 2, 3, [x0, e.ofInt 6, e.ofInt 6, x3, x4]⟩ := by
  rw [loop_succ, module6_body_first, Option.some_bind]
  exact loop_fixed _ _ (module6_body_first e x0 (e.ofInt 6) (e.ofInt 6) x3 x4) n

theorem trips_of_range (longBits : Nat) (k lc : Int) (h0 : 0 ≤ k * lc)
    (h1 : k * lc < 2 ^ (longBits - 1)) : trips longBits k lc = (k * lc).toNat := by
  unfold trips wrapLong
  cases longBits with
  | zero =>
    have hx : k * lc = 0 := by
      simp only [Nat.zero_sub, pow_zero] at h1
      omega
    rw [hx]
    decide
  | succ n =>
    have hP : (0 : Int) < 2 ^ n := by positivity
    have e1 : (2 : Int) ^ (n + 1) = 2 * 2 ^ n := by ring
    have h1' : k * lc < 2 ^ n := by simpa using h1
    have hm : (k * lc + 2 ^ n) % (2 * 2 ^ n) = k * lc + 2 ^ n :=
      Int.emod_eq_of_lt (by linarith) (by linarith)
    simp only [Nat.add_sub_cancel, e1, hm]
    congr 1
    ring

theorem trips_succ (longBits : Nat) (k lc : Int) (hk : 1 ≤ k) (h : 1 ≤ lc)
    (hb : k * lc < 2 ^ (longBits - 1)) : ∃ n, trips longBits k lc = n + 1 := by
  have h1 : 1 ≤ k * lc := by nlinarith
  refine ⟨(k * lc).toNat - 1, ?_⟩
  rw [trips_of_range longBits k lc (by linarith) hb]
  omega

theorem trips_616 (longBits : Nat) (lc : Int) (h : 1 ≤ lc) (hb : 616 * lc < 2 ^ (longBits - 1)) :
    ∃ k, trips longBits 616 lc = 2 * k + 2 := by
  refine ⟨(308 * lc).toNat - 1, ?_⟩
  rw [trips_of_range longBits 616 lc (by linarith) hb]
  omega

theorem iterations_succ (lc : Int) (h : 1 ≤ lc) : ∃ n, iterations lc = n + 1 := by
  refine ⟨lc.toNat - 1, ?_⟩
  unfold iterations
  omega

theorem wrLit_int_one (x0 x1 x2 x3 x4 : Int) :
    wrLit intElem.ofDouble [x0, x1, x2, x3, x4] 1 1 = some [x0, 1, x2, x3, x4] := by
  simp [wrLit, intElem_ofDouble_one, wr]

theorem wrLit_int_two (x0 x1 x2 x3 x4 : Int) :
    wrLit intElem.ofDouble [x0, x1, x2, x3, x4] 2 2 = some [x0, x1, 2, x3, x4] := by
  simp [wrLit, intElem_ofDouble_two, wr]

theorem wrLit_int_three (x0 x1 x2 x3 x4 : Int) :
    wrLit intElem.ofDouble [x0, x1, x2, x3, x4] 3 3 = some [x0, x1, x2, 3, x4] := by
  simp [wrLit, intElem_ofDouble_three, wr]

theorem wrLit_int_neg_one (x0 x1 x2 x3 x4 : Int) :
    wrLit intElem.ofDouble [x0, x1, x2, x3, x4] 2 (-1) = some [x0, x1, -1, x3, x4] ∧
    wrLit intElem.ofDouble [x0, x1, x2, x3, x4] 3 (-1) = some [x0, x1, x2, -1, x4] ∧
    wrLit intElem.ofDouble [x0, x1, x2, x3, x4] 4 (-1) = some [x0, x1, x2, x3, -1] := by
  simp [wrLit, intElem_ofDouble_neg_one, wr]

theorem resetSlots_int (x0 x1 x2 x3 x4 : Int) :
    resetSlots intElem [x0, x1, x2, x3, x4] = some [x0, 1, -1, -1, -1] := by
  simp only [resetSlots, wrLit_int_one, Option.some_bind, (wrLit_int_neg_one _ _ _ _ _).1,
    (wrLit_int_neg_one _ _ _ _ _).2.1, (wrLit_int_neg_one _ _ _ _ _).2.2]

theorem module1_body_int_zero (s : Quad Int) : module1_body intElem 0 s = ⟨0, 0, 0, 0⟩ := by
  simp [module1_body, intElem, wrap32_zero]

theorem module1_iterate_int_zero (n : Nat) (s : Quad Int) :
    (module1_body intElem 0)^[n + 1] s = ⟨0, 0, 0, 0⟩ := by
  rw [Function.iterate_succ_apply', module1_body_int_zero]

theorem loop_module2_int_zero (n : Nat) (x0 a b c d : Int) :
    loop (module2_body intElem 0) (n + 1) [x0, a, b, c, d] = some [x0, 0, 0, 0, 0] := by
  rw [loop_module2_eq, module1_iterate_int_zero]

theorem PA_int_zero (x0 a b c d : Int) :
    PA intElem 0 [x0, a, b, c, d] = some [x0, 0, b, c, d] := by
  simp [PA, withSlots, rd, wr, intElem, wrap32_zero]

theorem loop_PA_int_zero (n : Nat) (x0 : Int) :
    loop (PA intElem 0) n [x0, 0, 0, 0, 0] = some [x0, 0, 0, 0, 0] :=
  loop_fixed _ _ (PA_int_zero x0 0 0 0 0) n

theorem module9_int (longBits : Nat) (loop_count : Int) (k : Nat)
    (hk : trips longBits 616 loop_count = 2 * k + 2) (T_ T1 T2 x0 x1 x2 x3 x4 : Int) :
    module9_array_references longBits intElem ⟨loop_count, [x0, x1, x2, x3, x4], T_, T1, T2⟩ =
      some [x0, 1, 2, 1, x4] := by
  simp only [module9_array_references, wrLit_int_one, wrLit_int_two, wrLit_int_three,
    Option.bind_eq_bind, Option.some_bind, hk, (loop_P0_parity _ _ _ _ _ k).2]

theorem module9_int_none (longBits : Nat) (loop_count : Int)
    (hk : trips longBits 616 loop_count = 0) (T_ T1 T2 x0 x1 x2 x3 x4 : Int) :
    module9_array_references longBits intElem ⟨loop_count, [x0, x1, x2, x3, x4], T_, T1, T2⟩ =
      some [x0, 1, 2, 3, x4] := by
  simp only [module9_array_references, wrLit_int_one, wrLit_int_two, wrLit_int_three,
    Option.bind_eq_bind, Option.some_bind, hk, loop]

theorem module9_generic (longBits : Nat) {α : Type} (e : Elem α) (loop_count : Int) (k : Nat)
    (hk : trips longBits 616 loop_count = 2 * k + 2)
    (v1 v2 v3 : α) (h1 : e.ofDouble (Dbl.fin 1) = some v1) (h2 : e.ofDouble (Dbl.fin 2) = some v2)
    (h3 : e.ofDouble (Dbl.fin 3) = some v3) (T_ T1 T2 x0 x1 x2 x3 x4 : α) :
    module9_array_references longBits e ⟨loop_count, [x0, x1, x2, x3, x4], T_, T1, T2⟩ =
      some [x0, v1, v2, v1, x4] := by
  have w1 : wrLit e.ofDouble [x0, x1, x2, x3, x4] 1 1 = some [x0, v1, x2, x3, x4] := by
    simp [wrLit, h1, wr]
  have w2 : wrLit e.ofDouble [x0, v1, x2, x3, x4] 2 2 = some [x0, v1, v2, x3, x4] := by
    simp [wrLit, h2, wr]
  have w3 : wrLit e.ofDouble [x0, v1, v2, x3, x4] 3 3 = some [x0, v1, v2, v3, x4] := by
    simp [wrLit, h3, wr]
  simp only [module9_array_references, w1, w2, w3,
    Option.bind_eq_bind, Option.some_bind, hk, (loop_P0_parity _ _ _ _ _ k).2]

/-- The integer run of `perform_benchmark` when modules 2 and 6 make at least
one iteration: the final container is the one module 9 leaves. -/
theorem perform_benchmark_int_of {m : Cmath} (hm : AnnexF m) (longBits : Nat) (loop_count : Int)
    (n2 n6 : Nat) (E9 : List Int)
    (hn2 : trips longBits 12 loop_count = n2 + 1) (hn6 : trips longBits 210 loop_count = n6 + 1)
    (h9 : module9_array_references longBits intElem ⟨loop_count, [0, 6, 6, 0, 0], 0, 0, 2⟩ =
      some E9) :
    ∃ f, perform_benchmark longBits intElem m ⟨loop_count, [0, 0, 0, 0, 0], 0, 0, 2⟩ = some f ∧
      f.E1 = E9 ∧ f.m6 = (1, 2, 3) := by
  have hq : initQuad intElem.ofDouble 1 (-1) (-1) (-1) = some ⟨1, -1, -1, -1⟩ := by
    simp [initQuad, intElem_ofDouble_one, intElem_ofDouble_neg_one]
  have h2 : module2_array_elements longBits intElem ⟨loop_count, [0, 1, -1, -1, -1], 0, 0, 2⟩ =
      some [0, 0, 0, 0, 0] := by
    simp only [module2_array_elements, hn2, loop_module2_int_zero]
  have h3 : module3_array_as_parameter longBits intElem ⟨loop_count, [0, 0, 0, 0, 0], 0, 0, 2⟩ =
      some [0, 0, 0, 0, 0] := by
    simp only [module3_array_as_parameter, loop_PA_int_zero]
  have h6 : module6_integer_arithmetic longBits intElem wrap32
      ⟨loop_count, [0, 0, 0, 0, 0], 0, 0, 2⟩ = some ⟨1, 2, 3, [0, 6, 6, 0, 0]⟩ := by
    simp only [module6_integer_arithmetic, hn6, loop_module6]
    rfl
  have h7 := module7_int longBits hm ⟨loop_count, [0, 0, 0, 0, 0], 0, 0, 2⟩ rfl rfl
  have h11 := module11_int longBits hm ⟨loop_count, [0, 0, 0, 0, 0], 0, 0, 2⟩ rfl
  obtain ⟨r8, h8⟩ : ∃ r, module8_procedure_calls longBits intElem
      ⟨loop_count, [0, 0, 0, 0, 0], 0, 0, 2⟩ = some r := by
    simp [module8_procedure_calls, intElem_ofDouble_one]
  have key : perform_benchmark longBits intElem m ⟨loop_count, [0, 0, 0, 0, 0], 0, 0, 2⟩ =
      some ⟨E9, module1_simple_identifiers intElem ⟨loop_count, [0, 0, 0, 0, 0], 0, 0, 2⟩
          ⟨1, -1, -1, -1⟩,
        module4_conditional_jumps longBits loop_count, (1, 2, 3),
        (0, 0), r8, module10_integer_arithmetic wrap32 loop_count, 0⟩ := by
    simp only [perform_benchmark, hq, wrLit_int_one, (wrLit_int_neg_one _ _ _ _ _).1,
      (wrLit_int_neg_one _ _ _ _ _).2.1, (wrLit_int_neg_one _ _ _ _ _).2.2, h2, h3, h6, h7, h8,
      h9, h11, Option.bind_eq_bind, Option.some_bind, Option.pure_def]
  exact ⟨_, key, rfl, rfl⟩

/-! ## Properties of the program -/

/-- C1, as stated, fails: the argument `12abc` is not numeric (not all of its
characters are digits), yet `std::stol` converts its leading digits to 12 and
ignores the rest, so `main` returns 0, runs the three instantiations with
loop count 12 and writes their eleven lines of output. -/
theorem main_accepts_trailing_text :
    ("12abc".toList.all fun c => (digitVal c).isSome) = false ∧
    numericValue "12abc".toList = some 12 ∧
    stol 64 "12abc".toList = Except.ok 12 ∧
    main 64 linearCmath (fun _ => (0, 1)) ["Whetstone2", "12abc"] =
      some ⟨0, mainOutput 12 (fun _ => (0, 1)), [],
        [(NumType.int, 12), (NumType.float, 12), (NumType.double, 12)]⟩ ∧
    lineCount (mainOutput 12 (fun _ => (0, 1))) = 11 := by
  have hv : numericValue "12abc".toList = some 12 := by decide
  have hs : stol 64 "12abc".toList = Except.ok 12 := by
    simp only [stol, hv]
    rw [if_pos (by norm_num)]
  exact ⟨by decide, hv, hs,
    main_of_parsed linearCmath_annexF 64 (fun _ => (0, 1)) ["Whetstone2", "12abc"] 12
      (parseArgs_ok 64 "Whetstone2" "12abc" [] 12 hs (by norm_num)),
    lineCount_unlines _ (mainLines_no_newline 12 (fun _ => (0, 1)))⟩

/-- C1, amended: a command-line argument at whose start (after optional white
space and an optional sign) `std::stol` finds no decimal digit, or whose
converted number is at most 0, makes `main` return the non-zero status
`EXIT_FAILURE`, write nothing to standard output, and construct and run no
benchmark instance. -/
theorem main_rejects_bad_argument (longBits : Nat) (m : Cmath) (clock : NumType → ℚ × ℚ)
    (prog arg : String) (rest : List String)
    (h : numericValue arg.toList = none ∨ ∃ n, numericValue arg.toList = some n ∧ n ≤ 0) :
    ∃ r, main longBits m clock (prog :: arg :: rest) = some r ∧
      r.status = EXIT_FAILURE ∧ r.status ≠ 0 ∧ r.out = [] ∧ r.ran = [] := by
  rcases h with h | ⟨n, h, hn⟩
  · have hmain : main longBits m clock (prog :: arg :: rest) = some ⟨EXIT_FAILURE, [],
        text "Invalid input: " ++ [Piece.what StolError.invalid_argument] ++ text "\n", []⟩ := by
      simp only [main, parseArgs, stol, h]
    exact ⟨_, hmain, rfl, by decide, rfl, rfl⟩
  · by_cases hr : -2 ^ (longBits - 1) ≤ n ∧ n < 2 ^ (longBits - 1)
    · have hmain : main longBits m clock (prog :: arg :: rest) = some ⟨EXIT_FAILURE, [],
          text "Error: Loop count must be positive.\n", []⟩ := by
        simp only [main, parseArgs, stol, h, if_pos hr, if_pos hn]
      exact ⟨_, hmain, rfl, by decide, rfl, rfl⟩
    · have hmain : main longBits m clock (prog :: arg :: rest) = some ⟨EXIT_FAILURE, [],
          text "Invalid input: " ++ [Piece.what StolError.out_of_range] ++ text "\n", []⟩ := by
        simp only [main, parseArgs, stol, h, if_neg hr]
      exact ⟨_, hmain, rfl, by decide, rfl, rfl⟩

/-- C1, amended, at the arguments `abc` (no number) and `-5` (not positive). -/
theorem main_rejects_bad_argument_witness :
    (numericValue "abc".toList = none ∨ ∃ n, numericValue "abc".toList = some n ∧ n ≤ 0) ∧
    (numericValue "-5".toList = none ∨ ∃ n, numericValue "-5".toList = some n ∧ n ≤ 0) ∧
    (∃ r, main 64 linearCmath (fun _ => (0, 1)) ["Whetstone2", "abc"] = some r ∧
      r.status = EXIT_FAILURE ∧ r.status ≠ 0 ∧ r.out = [] ∧ r.ran = []) ∧
    (∃ r, main 64 linearCmath (fun _ => (0, 1)) ["Whetstone2", "-5"] = some r ∧
      r.status = EXIT_FAILURE ∧ r.status ≠ 0 ∧ r.out = [] ∧ r.ran = []) :=
  ⟨Or.inl (by decide), Or.inr ⟨-5, by decide, by decide⟩,
    main_rejects_bad_argument 64 linearCmath (fun _ => (0, 1)) "Whetstone2" "abc" []
      (Or.inl (by decide)),
    main_rejects_bad_argument 64 linearCmath (fun _ => (0, 1)) "Whetstone2" "-5" []
      (Or.inr ⟨-5, by decide, by decide⟩)⟩

/-- C2: for a positive loop count and a positive duration, each of the three
instantiations of `run` prints the score `100 * loop_count / duration` divided
by 1000 with the label MIPS exactly when the score is at least 1000, and the
score itself with the label KIPS exactly when it is below 1000; a score of
999.999 is labelled KIPS and a score of 1000 is labelled MIPS. -/
theorem run_score_threshold (longBits : Nat) (m : Cmath) (hm : AnnexF m) (t : NumType)
    (loop_count : Int) (start_time end_time : ℚ) (hl : 0 < loop_count) (hd : start_time < end_time) :
    (1000 ≤ 100 * (loop_count : ℚ) / (end_time - start_time) ↔
      runOutput longBits t m loop_count start_time end_time = some (reportText
        (end_time - start_time)
        (100 * (loop_count : ℚ) / (end_time - start_time) / 1000) " MIPS\n")) ∧
    (100 * (loop_count : ℚ) / (end_time - start_time) < 1000 ↔
      runOutput longBits t m loop_count start_time end_time = some (reportText
        (end_time - start_time)
        (100 * (loop_count : ℚ) / (end_time - start_time)) " KIPS\n")) ∧
    (100 * (loop_count : ℚ) / (end_time - start_time) = 999999 / 1000 →
      runOutput longBits t m loop_count start_time end_time = some (reportText
        (end_time - start_time)
        (999999 / 1000) " KIPS\n")) ∧
    (100 * (loop_count : ℚ) / (end_time - start_time) = 1000 →
      runOutput longBits t m loop_count start_time end_time = some (reportText
        (end_time - start_time)
        1 " MIPS\n")) := by
  have _hl := hl
  have hM : 1000 ≤ 100 * (loop_count : ℚ) / (end_time - start_time) →
      runOutput longBits t m loop_count start_time end_time = some (reportText
        (end_time - start_time)
        (100 * (loop_count : ℚ) / (end_time - start_time) / 1000) " MIPS\n") := by
    intro h
    rw [runOutput_eq longBits hm, report_mips loop_count start_time end_time hd h]
  have hK : 100 * (loop_count : ℚ) / (end_time - start_time) < 1000 →
      runOutput longBits t m loop_count start_time end_time = some (reportText
        (end_time - start_time)
        (100 * (loop_count : ℚ) / (end_time - start_time)) " KIPS\n") := by
    intro h
    rw [runOutput_eq longBits hm, report_kips loop_count start_time end_time hd h]
  refine ⟨⟨hM, ?_⟩, ⟨hK, ?_⟩, ?_, ?_⟩
  · intro h
    by_contra hc
    have h2 := hK (not_le.mp hc)
    rw [h] at h2
    exact reportText_label_ne _ _ _ (Option.some.inj h2)
  · intro h
    by_contra hc
    have h2 := hM (not_lt.mp hc)
    rw [h] at h2
    exact reportText_label_ne _ _ _ (Option.some.inj h2).symm
  · intro h
    have h2 := hK (by rw [h]; norm_num)
    rwa [h] at h2
  · intro h
    have h2 := hM (by rw [h])
    rw [h] at h2
    norm_num at h2
    exact h2

/-- C2, at loop counts 999999 and 1000000 with a duration of 100000 seconds:
the scores are exactly 999.999 (KIPS) and 1000 (MIPS). -/
theorem run_score_threshold_witness :
    AnnexF linearCmath ∧ (0 : Int) < 999999 ∧ (0 : ℚ) < 100000 ∧
    runOutput 64 NumType.double linearCmath 999999 0 100000 =
      some (reportText (100000 - 0) (999999 / 1000) " KIPS\n") ∧
    runOutput 64 NumType.double linearCmath 1000000 0 100000 =
      some (reportText (100000 - 0) 1 " MIPS\n") :=
  ⟨linearCmath_annexF, by decide, by norm_num,
    (run_score_threshold 64 linearCmath linearCmath_annexF NumType.double 999999 0 100000
      (by decide) (by norm_num)).2.2.1 (by norm_num),
    (run_score_threshold 64 linearCmath linearCmath_annexF NumType.double 1000000 0 100000
      (by decide) (by norm_num)).2.2.2 (by norm_num)⟩

/-- C3: in exact arithmetic with `T_ = 0.499975` and `loop_count = 1`, module 1
started from `(1, -1, -1, -1)` runs its body once and yields `X1 = 0`,
`X2 = -T_`, `X3 = (0 + T_ - 1 - 1) * T_` and `X4 = (-X1 + X2 + X3 + X4) * T_`
computed from the updated `X1`, `X2`, `X3`; in particular `X2` is not the value
`(1 - 1 + 1 - 1) * T_` a simultaneous update would give. -/
theorem module1_first_iteration :
    ∃ (b : Bench Dbl) (x : Quad Dbl),
      WhetstoneBenchmark realElem 1 = some b ∧
      b.T_ = Dbl.fin (499975 / 1000000) ∧
      initQuad realElem.ofDouble 1 (-1) (-1) (-1) = some x ∧
      x = ⟨Dbl.fin 1, Dbl.fin (-1), Dbl.fin (-1), Dbl.fin (-1)⟩ ∧
      module1_simple_identifiers realElem b x = module1_body realElem b.T_ x ∧
      (module1_body realElem b.T_ x).X1 = Dbl.fin 0 ∧
      (module1_body realElem b.T_ x).X2 = Dbl.fin (-(499975 / 1000000)) ∧
      (module1_body realElem b.T_ x).X3 =
        Dbl.fin ((0 + 499975 / 1000000 - 1 - 1) * (499975 / 1000000)) ∧
      (module1_body realElem b.T_ x).X4 =
        Dbl.fin ((-0 + -(499975 / 1000000) + (0 + 499975 / 1000000 - 1 - 1) * (499975 / 1000000)
          + -1) * (499975 / 1000000)) ∧
      (module1_body realElem b.T_ x).X2 ≠ Dbl.fin ((1 + -1 - -1 + -1) * (499975 / 1000000)) := by
  refine ⟨⟨1, List.replicate 5 (Dbl.fin 0), Dbl.fin (499975 / 1000000),
    Dbl.fin (50025 / 100000), Dbl.fin 2⟩, ⟨Dbl.fin 1, Dbl.fin (-1), Dbl.fin (-1), Dbl.fin (-1)⟩,
    ?_, rfl, ?_, rfl, ?_, ?_, ?_, ?_, ?_, ?_⟩
  · simp [WhetstoneBenchmark, realElem]
  · simp [initQuad, realElem]
  · simp [module1_simple_identifiers, iterations]
  · simp [module1_body, realElem, Dbl.add, Dbl.sub, Dbl.mul, Dbl.neg]
  · simp [module1_body, realElem, Dbl.add, Dbl.sub, Dbl.mul, Dbl.neg]
  · simp [module1_body, realElem, Dbl.add, Dbl.sub, Dbl.mul, Dbl.neg]
    norm_num
  · simp [module1_body, realElem, Dbl.add, Dbl.sub, Dbl.mul, Dbl.neg]
    norm_num
  · simp [module1_body, realElem, Dbl.add, Dbl.sub, Dbl.mul, Dbl.neg]

/-- C4: one call of `P0` (one iteration of the loop of module 9) maps the
slots `(E[1], E[2], E[3]) = (a, b, c)` to `(b, a, b)` and leaves slots 0 and 4
unchanged; from `(1, 2, 3)` the result is `(2, 1, 2)`, which is not a
rearrangement of `(1, 2, 3)`. -/
theorem P0_rotation :
    (∀ (α : Type) (x0 a b c x4 : α), P0 [x0, a, b, c, x4] = some [x0, b, a, b, x4]) ∧
    (∀ (α : Type) (x0 a b c x4 : α), loop P0 1 [x0, a, b, c, x4] = some [x0, b, a, b, x4]) ∧
    P0 [(0 : Int), 1, 2, 3, 0] = some [0, 2, 1, 2, 0] ∧
    ¬ List.Perm [(2 : Int), 1, 2] [1, 2, 3] := by
  refine ⟨fun α x0 a b c x4 => by simp [P0, rd, wr],
    fun α x0 a b c x4 => by simp [loop, P0, rd, wr], by simp [P0, rd, wr], by decide⟩

/-- C5: in the integer instantiation the three constants are `T_ = 0` (from
0.499975), `T1 = 0` (from 0.50025) and `T2 = 2` (from 2.0), by truncation
toward zero. -/
theorem int_constants_truncate (loop_count : Int) :
    intElem.ofDouble (Dbl.fin (499975 / 1000000)) = some 0 ∧
    intElem.ofDouble (Dbl.fin (50025 / 100000)) = some 0 ∧
    intElem.ofDouble (Dbl.fin 2) = some 2 ∧
    truncQ (499975 / 1000000) = 0 ∧ truncQ (50025 / 100000) = 0 ∧ truncQ 2 = 2 ∧
    ∃ b, WhetstoneBenchmark intElem loop_count = some b ∧ b.T_ = 0 ∧ b.T1 = 0 ∧ b.T2 = 2 := by
  have h1 : intElem.ofDouble (Dbl.fin (499975 / 1000000)) = some 0 :=
    intElem_ofDouble_unit (by norm_num) (by norm_num)
  have h2 : intElem.ofDouble (Dbl.fin (50025 / 100000)) = some 0 :=
    intElem_ofDouble_unit (by norm_num) (by norm_num)
  have h3 : truncQ 2 = 2 := by simpa using truncQ_intCast 2
  exact ⟨h1, h2, intElem_ofDouble_two, truncQ_of_unit (by norm_num) (by norm_num),
    truncQ_of_unit (by norm_num) (by norm_num), h3, _, WhetstoneBenchmark_int loop_count,
    rfl, rfl, rfl⟩

/-- C6, as stated, fails: for the argument `100` the text `main` writes is not
the nine lines (header, duration, performance for each type); it has eleven
lines. -/
theorem main_output_not_nine_lines :
    ∃ r, main 64 linearCmath (fun _ => (0, 1)) ["Whetstone2", "100"] = some r ∧
      r.status = 0 ∧
      r.out ≠ unlines (block NumType.int 100 (fun _ => (0, 1))
        ++ block NumType.float 100 (fun _ => (0, 1))
        ++ block NumType.double 100 (fun _ => (0, 1))) ∧
      lineCount r.out = 11 := by
  have hv : numericValue "100".toList = some 100 := by decide
  have hs : stol 64 "100".toList = Except.ok 100 := by
    simp only [stol, hv]
    rw [if_pos (by norm_num)]
  have hmain := main_of_parsed linearCmath_annexF 64 (fun _ => (0, 1)) ["Whetstone2", "100"] 100
    (parseArgs_ok 64 "Whetstone2" "100" [] 100 hs (by norm_num))
  have h11 : lineCount (mainOutput 100 (fun _ => (0, 1))) = 11 :=
    lineCount_unlines _ (mainLines_no_newline 100 (fun _ => (0, 1)))
  refine ⟨_, hmain, rfl, ?_, h11⟩
  intro h
  have h9 := lineCount_unlines _ (nineLines_no_newline 100 (fun _ => (0, 1)))
  rw [← h] at h9
  simp only at h9
  rw [h11] at h9
  revert h9
  decide

/-- C6, amended: for an argument that `std::stol` parses to a positive
`loop_count`, `main` runs the instantiations int, float, double in that order,
each with `loop_count`, returns 0, writes nothing to standard error, and
writes eleven lines to standard output: for each type its header line, its
Duration line and its Performance line, with one empty line before the float
header and one before the double header. -/
theorem main_runs_three_instantiations (longBits : Nat) (m : Cmath) (clock : NumType → ℚ × ℚ)
    (prog arg : String) (rest : List String) (loop_count : Int) (hm : AnnexF m)
    (h : stol longBits arg.toList = Except.ok loop_count) (hp : 0 < loop_count) :
    main longBits m clock (prog :: arg :: rest) = some ⟨0,
      unlines (block NumType.int loop_count clock ++ [[]]
        ++ block NumType.float loop_count clock ++ [[]]
        ++ block NumType.double loop_count clock),
      [],
      [(NumType.int, loop_count), (NumType.float, loop_count), (NumType.double, loop_count)]⟩ ∧
    (∀ l ∈ block NumType.int loop_count clock ++ [[]]
        ++ block NumType.float loop_count clock ++ [[]]
        ++ block NumType.double loop_count clock, Piece.chr '\n' ∉ l) ∧
    lineCount (unlines (block NumType.int loop_count clock ++ [[]]
        ++ block NumType.float loop_count clock ++ [[]]
        ++ block NumType.double loop_count clock)) = 11 :=
  ⟨main_of_parsed hm longBits clock (prog :: arg :: rest) loop_count
      (parseArgs_ok longBits prog arg rest loop_count h hp),
    mainLines_no_newline loop_count clock,
    lineCount_unlines _ (mainLines_no_newline loop_count clock)⟩

/-- C6, amended, at the argument `100`. -/
theorem main_runs_three_instantiations_witness :
    AnnexF linearCmath ∧ stol 64 "100".toList = Except.ok 100 ∧ (0 : Int) < 100 ∧
    main 64 linearCmath (fun _ => (0, 1)) ["Whetstone2", "100"] = some ⟨0,
      unlines (block NumType.int 100 (fun _ => (0, 1)) ++ [[]]
        ++ block NumType.float 100 (fun _ => (0, 1)) ++ [[]]
        ++ block NumType.double 100 (fun _ => (0, 1))),
      [],
      [(NumType.int, 100), (NumType.float, 100), (NumType.double, 100)]⟩ :=
  have hs : stol 64 "100".toList = Except.ok 100 := by
    have hv : numericValue "100".toList = some 100 := by decide
    simp only [stol, hv]
    rw [if_pos (by norm_num)]
  ⟨linearCmath_annexF, hs, by decide,
    (main_runs_three_instantiations 64 linearCmath (fun _ => (0, 1)) "Whetstone2" "100" [] 100
      linearCmath_annexF hs (by decide)).1⟩

/-- C7, as stated, fails: there is no loop count and no iteration of module 6
at which the index `L - 1` or the index `K - 1` lies outside `0..4`. -/
theorem module6_never_out_of_bounds :
    ¬ ∃ (longBits : Nat) (loop_count : Int) (i : Nat), i < trips longBits 210 loop_count ∧
      (¬ inBounds (module6_indices wrap32 i).1 ∨ ¬ inBounds (module6_indices wrap32 i).2) := by
  rintro ⟨bits, lc, i, -, h⟩
  simp only [module6_indices, module6_locals_iterate] at h
  revert h
  decide

/-- C7, amended: in module 6 the integers `J`, `K`, `L` do not diverge; after
every iteration they are again 1, 2, 3 (with or without reduction modulo
2^32), so the indices written are always `L - 1 = 2` and `K - 1 = 1`, within
the bounds `0..4` of the container, and the module runs to completion on the
5-element container for every loop count. -/
theorem module6_indices_in_bounds (longBits : Nat) (i : Nat) :
    (module6_locals wrap32)^[i] (1, 2, 3) = (1, 2, 3) ∧
    (module6_locals id)^[i] (1, 2, 3) = (1, 2, 3) ∧
    module6_indices wrap32 i = (2, 1) ∧
    inBounds (module6_indices wrap32 i).1 ∧ inBounds (module6_indices wrap32 i).2 ∧
    (∀ (α : Type) (e : Elem α) (loop_count : Int) (T_ T1 T2 x0 x1 x2 x3 x4 : α),
      ∃ s, module6_integer_arithmetic longBits e wrap32
        ⟨loop_count, [x0, x1, x2, x3, x4], T_, T1, T2⟩ = some s ∧ (s.J, s.K, s.L) = (1, 2, 3) ∧ s.E1.length = 5) := by
  have hid : (module6_locals id)^[i] (1, 2, 3) = (1, 2, 3) :=
    Function.iterate_fixed (by decide) i
  refine ⟨module6_locals_iterate i, hid, ?_, ?_, ?_, ?_⟩
  · simp only [module6_indices, module6_locals_iterate]
    decide
  · simp only [module6_indices, module6_locals_iterate]
    decide
  · simp only [module6_indices, module6_locals_iterate]
    decide
  · intro α e loop_count T_ T1 T2 x0 x1 x2 x3 x4
    obtain ⟨s, hs, ⟨hJ, hK, hL⟩, hlen⟩ :=
      module6_fixed longBits e ⟨loop_count, [x0, x1, x2, x3, x4], T_, T1, T2⟩ rfl
    exact ⟨s, hs, by rw [hJ, hK, hL], hlen⟩

/-- C8, as stated, fails: started from `J = 1`, there is no value `v` and no
iteration `N` such that `J = v` at the end of every iteration from `N` on. -/
theorem module4_no_steady_state :
    ¬ ∃ (v : Int) (N : Nat), ∀ n : Nat, N ≤ n → module4_body^[n] 1 = v := by
  rintro ⟨v, N, h⟩
  have h0 := h (2 * N) (by omega)
  have h1 := h (2 * N + 1) (by omega)
  rw [(module4_iterate N).1] at h0
  rw [(module4_iterate N).2] at h1
  omega

/-- C8, amended: started from `J = 1`, the three conditional reassignments of
module 4 form a closed cycle of period two: `J` at the end of iteration `n + 2`
equals `J` at the end of iteration `n`, and differs from `J` at the end of
iteration `n + 1`. -/
theorem module4_period_two (n : Nat) :
    module4_body^[n + 2] 1 = module4_body^[n] 1 ∧
    module4_body^[n + 1] 1 ≠ module4_body^[n] 1 := by
  rcases Nat.even_or_odd' n with ⟨k, rfl | rfl⟩
  · have e1 : 2 * k + 2 = 2 * (k + 1) := by ring
    rw [e1, (module4_iterate (k + 1)).1, (module4_iterate k).1, (module4_iterate k).2]
    exact ⟨rfl, by decide⟩
  · have e1 : 2 * k + 1 + 2 = 2 * (k + 1) + 1 := by ring
    have e2 : 2 * k + 1 + 1 = 2 * (k + 1) := by ring
    rw [e1, e2, (module4_iterate (k + 1)).2, (module4_iterate k).2, (module4_iterate (k + 1)).1]
    exact ⟨rfl, by decide⟩

/-- C9: one iteration of module 10 maps `(J, K) = (j, k)` to `(k, j)`, in exact
integer arithmetic and modulo 2^32, so two iterations are the identity; from
`(2, 3)` the state is `(3, 2)` after an odd number of iterations and `(2, 3)`
after an even number, and no value computed on the way exceeds 8. -/
theorem module10_oscillation :
    (∀ j k : Int, module10_body id (j, k) = (k, j)) ∧
    (∀ j k : Int, module10_body wrap32 (wrap32 j, wrap32 k) = (wrap32 k, wrap32 j)) ∧
    (∀ j k : Int, (module10_body id)^[2] (j, k) = (j, k)) ∧
    (∀ j k : Int, (module10_body wrap32)^[2] (wrap32 j, wrap32 k) = (wrap32 j, wrap32 k)) ∧
    (∀ n : Nat, (module10_body id)^[2 * n] (2, 3) = (2, 3) ∧
      (module10_body id)^[2 * n + 1] (2, 3) = (3, 2)) ∧
    (∀ n : Nat, (module10_body wrap32)^[2 * n] (2, 3) = (2, 3) ∧
      (module10_body wrap32)^[2 * n + 1] (2, 3) = (3, 2)) ∧
    (∀ n : Nat, module10_integer_arithmetic wrap32 ((2 * n : Nat) : Int) = (2, 3) ∧
      module10_integer_arithmetic wrap32 ((2 * n + 1 : Nat) : Int) = (3, 2)) ∧
    (∀ n : Nat, ∀ v ∈ module10_values id ((module10_body id)^[n] (2, 3)), v ≤ 8) ∧
    (∀ n : Nat, ∀ v ∈ module10_values wrap32 ((module10_body wrap32)^[n] (2, 3)), v ≤ 8) := by
  refine ⟨module10_body_exact, module10_body_wrap, ?_, ?_, ?_, ?_, ?_, ?_, ?_⟩
  · intro j k
    simp [Function.iterate_succ, module10_body_exact]
  · intro j k
    simp [Function.iterate_succ, module10_body_wrap]
  · exact module10_iterate id (module10_body_exact 2 3) (module10_body_exact 3 2)
  · exact module10_iterate wrap32 module10_wrap_23 module10_wrap_32
  · intro n
    have h := module10_iterate wrap32 module10_wrap_23 module10_wrap_32 n
    simp only [module10_integer_arithmetic, iterations, Int.toNat_ofNat]
    exact h
  · intro n v hv
    rcases module10_state id (module10_body_exact 2 3) (module10_body_exact 3 2) n with h | h
    · rw [h] at hv
      simp [module10_values] at hv
      omega
    · rw [h] at hv
      simp [module10_values] at hv
      omega
  · intro n v hv
    rcases module10_state wrap32 module10_wrap_23 module10_wrap_32 n with h | h
    · rw [h] at hv
      revert v
      decide
    · rw [h] at hv
      revert v
      decide

/-- C10: the container and the locals left by `perform_benchmark` in a run
are the same for any two pairs of clock readings: they are a function of the
element type and the loop count alone; and the run does produce them, for the
floating instantiations and, with the special values of `<cmath>`, for the
integer one. -/
theorem final_state_independent_of_clock (longBits : Nat) :
    (∀ (α : Type) (e : Elem α) (m : Cmath) (loop_count : Int) (s1 t1 s2 t2 : ℚ),
      runFinal longBits e m loop_count s1 t1 = runFinal longBits e m loop_count s2 t2 ∧
      runFinal longBits e m loop_count s1 t1 =
        (WhetstoneBenchmark e loop_count).bind (perform_benchmark longBits e m)) ∧
    (∀ (m : Cmath) (loop_count : Int), ∃ f : Final Dbl, ∀ s t : ℚ,
      runFinal longBits realElem m loop_count s t = some f) ∧
    (∀ (m : Cmath) (loop_count : Int), AnnexF m → ∃ f : Final Int, ∀ s t : ℚ,
      runFinal longBits intElem m loop_count s t = some f) := by
  have key : ∀ (α : Type) (e : Elem α) (m : Cmath) (loop_count : Int) (s t : ℚ),
      runFinal longBits e m loop_count s t =
        (WhetstoneBenchmark e loop_count).bind (perform_benchmark longBits e m) := by
    intro α e m loop_count s t
    unfold runFinal
    cases WhetstoneBenchmark e loop_count with
    | none => rfl
    | some b =>
      simp only [Option.some_bind, run]
      cases perform_benchmark longBits e m b with
      | none => rfl
      | some f => rfl
  refine ⟨fun α e m loop_count s1 t1 s2 t2 => ⟨by rw [key, key], key _ _ _ _ _ _⟩, ?_, ?_⟩
  · intro m loop_count
    obtain ⟨f, hf, -⟩ := perform_benchmark_real longBits m (Bench.mk loop_count
      [Dbl.fin 0, Dbl.fin 0, Dbl.fin 0, Dbl.fin 0, Dbl.fin 0]
      (Dbl.fin (499975 / 1000000)) (Dbl.fin (50025 / 100000)) (Dbl.fin 2)) rfl
    exact ⟨f, fun s t => by rw [key, WhetstoneBenchmark_real, Option.some_bind, hf]⟩
  · intro m loop_count hm
    obtain ⟨f, hf, -⟩ := perform_benchmark_int longBits hm loop_count
    exact ⟨f, fun s t => by rw [key, WhetstoneBenchmark_int, Option.some_bind, hf]⟩

/-- C10, for the integer instantiation with loop count 100. -/
theorem final_state_independent_of_clock_witness :
    AnnexF linearCmath ∧ ∃ f : Final Int, ∀ s t : ℚ,
      runFinal 64 intElem linearCmath 100 s t = some f :=
  ⟨linearCmath_annexF,
    (final_state_independent_of_clock 64).2.2 linearCmath 100 linearCmath_annexF⟩

/-- C11, as stated, fails: in the integer instantiation, with `X = 0` and
`T1 = 0`, the quotient `log(X) / T1` of module 11 is the double minus
infinity, which is no `int`, and the loop body is defined and yields 0: no
integer division by zero takes place. -/
theorem module11_no_integer_division :
    module11_quotient intElem linearCmath 0 0 = Dbl.ninf ∧
    (∀ z : Int, module11_quotient intElem linearCmath 0 0 ≠ intElem.toDouble z) ∧
    module11_body intElem linearCmath 0 0 = some 0 ∧
    module11_body intElem linearCmath 0 0 ≠ none := by
  have hq : module11_quotient intElem linearCmath 0 0 = Dbl.ninf := by
    simp [module11_quotient, intElem, linearCmath, Dbl.div, Dbl.signedInf]
  have hb := module11_body_int linearCmath_annexF
  refine ⟨hq, ?_, hb, ?_⟩
  · intro z
    rw [hq]
    simp [intElem]
  · rw [hb]
    exact Option.some_ne_none 0

/-- C11, amended: in the integer instantiation the divisor `T1` of module 11
is 0 and `X` starts at 0, but `log(X) / T1` is a division of doubles: the
double `log(0)`, minus infinity, divided by `T1` promoted to the double 0,
which is minus infinity; `sqrt(exp(...))` of it is 0, so every iteration is
defined and leaves `X = 0`, and the module runs to completion. -/
theorem module11_divides_doubles (longBits : Nat) (m : Cmath) (hm : AnnexF m)
    (loop_count : Int) :
    (∀ (α : Type) (e : Elem α) (T1 X : α), module11_body e m T1 X =
      e.ofDouble (m.sqrt (m.exp (module11_quotient e m T1 X)))) ∧
    (∃ b, WhetstoneBenchmark intElem loop_count = some b ∧ b.T1 = 0 ∧
      intElem.toDouble b.T1 = Dbl.fin 0 ∧
      module11_standard_functions longBits intElem m b = some 0) ∧
    intElem.ofDouble (Dbl.fin (3 / 4)) = some 0 ∧
    module11_quotient intElem m 0 0 = Dbl.div (m.log (Dbl.fin 0)) (Dbl.fin 0) ∧
    module11_quotient intElem m 0 0 = Dbl.ninf ∧
    module11_body intElem m 0 0 = some 0 := by
  have hx : intElem.ofDouble (Dbl.fin (3 / 4)) = some 0 :=
    intElem_ofDouble_unit (by norm_num) (by norm_num)
  refine ⟨fun α e T1 X => rfl, ⟨_, WhetstoneBenchmark_int loop_count, rfl, ?_,
    module11_int longBits hm _ rfl⟩, hx, ?_, ?_, module11_body_int hm⟩
  · simp [intElem]
  · simp [module11_quotient, intElem]
  · simp [module11_quotient, intElem, hm.log_zero, Dbl.div, Dbl.signedInf]

/-- C11, amended, with the stand-in for `<cmath>` and loop count 1. -/
theorem module11_divides_doubles_witness :
    AnnexF linearCmath ∧ module11_quotient intElem linearCmath 0 0 = Dbl.ninf ∧
    module11_body intElem linearCmath 0 0 = some 0 :=
  ⟨linearCmath_annexF, (module11_divides_doubles 64 linearCmath linearCmath_annexF 1).2.2.2.2.1,
    (module11_divides_doubles 64 linearCmath linearCmath_annexF 1).2.2.2.2.2⟩

/-- C12: for every element type, coefficient `T_` and number `n` of
iterations, `n` iterations of the loop body of module 2 on a container whose
slots 1..4 hold `(a, b, c, d)` leave in slots 1..4 the values
`(X1, X2, X3, X4)` that `n` iterations of the loop body of module 1 produce
from the locals `(a, b, c, d)`, and leave slot 0 unchanged; in particular
from `(1, -1, -1, -1)`, as `perform_benchmark` sets them. -/
theorem module2_refines_module1 :
    (∀ (α : Type) (e : Elem α) (T_ : α) (n : Nat) (x0 a b c d : α),
      loop (module2_body e T_) n [x0, a, b, c, d] =
        some [x0, ((module1_body e T_)^[n] ⟨a, b, c, d⟩).X1,
          ((module1_body e T_)^[n] ⟨a, b, c, d⟩).X2,
          ((module1_body e T_)^[n] ⟨a, b, c, d⟩).X3,
          ((module1_body e T_)^[n] ⟨a, b, c, d⟩).X4]) ∧
    (∀ (T_ : Dbl) (n : Nat) (x0 x1 x2 x3 x4 : Dbl),
      ∃ E x, resetSlots realElem [x0, x1, x2, x3, x4] = some E ∧
        initQuad realElem.ofDouble 1 (-1) (-1) (-1) = some x ∧
        x = ⟨Dbl.fin 1, Dbl.fin (-1), Dbl.fin (-1), Dbl.fin (-1)⟩ ∧
        loop (module2_body realElem T_) n E =
          some [x0, ((module1_body realElem T_)^[n] x).X1, ((module1_body realElem T_)^[n] x).X2,
            ((module1_body realElem T_)^[n] x).X3, ((module1_body realElem T_)^[n] x).X4]) ∧
    (∀ (T_ : Int) (n : Nat) (x0 x1 x2 x3 x4 : Int),
      ∃ E x, resetSlots intElem [x0, x1, x2, x3, x4] = some E ∧
        initQuad intElem.ofDouble 1 (-1) (-1) (-1) = some x ∧
        x = ⟨1, -1, -1, -1⟩ ∧
        loop (module2_body intElem T_) n E =
          some [x0, ((module1_body intElem T_)^[n] x).X1, ((module1_body intElem T_)^[n] x).X2,
            ((module1_body intElem T_)^[n] x).X3, ((module1_body intElem T_)^[n] x).X4]) := by
  refine ⟨fun α e T_ n => loop_module2_eq e T_ n, ?_, ?_⟩
  · intro T_ n x0 x1 x2 x3 x4
    refine ⟨[x0, Dbl.fin 1, Dbl.fin (-1), Dbl.fin (-1), Dbl.fin (-1)],
      ⟨Dbl.fin 1, Dbl.fin (-1), Dbl.fin (-1), Dbl.fin (-1)⟩, ?_, ?_, rfl,
      loop_module2_eq realElem T_ n _ _ _ _ _⟩
    · simp [resetSlots, wrLit, realElem, wr]
    · simp [initQuad, realElem]
  · intro T_ n x0 x1 x2 x3 x4
    refine ⟨[x0, 1, -1, -1, -1], ⟨1, -1, -1, -1⟩, resetSlots_int _ _ _ _ _, ?_, rfl,
      loop_module2_eq intElem T_ n _ _ _ _ _⟩
    simp [initQuad, intElem_ofDouble_one, intElem_ofDouble_neg_one]

/-- C13: a call of `PA` sets `E[1]` to `(E[1] + E[2] + E[3] - E[4]) * T_`
computed from the current slots and changes no other slot; module 3 runs on
the container that module 2 left, and for every loop count slots 0, 2, 3 and 4
after module 3 are those after module 2. -/
theorem module3_changes_only_slot_one (longBits : Nat) :
    (∀ (α : Type) (e : Elem α) (T_ x0 a b c d : α),
      PA e T_ [x0, a, b, c, d] =
        some [x0, e.mul (e.sub (e.add (e.add a b) c) d) T_, b, c, d]) ∧
    (∀ (α : Type) (e : Elem α) (T_ : α) (n : Nat) (x0 a b c d : α),
      ∃ y, loop (PA e T_) n [x0, a, b, c, d] = some [x0, y, b, c, d]) ∧
    (∀ (α : Type) (e : Elem α) (loop_count : Int) (T_ T1 T2 x0 a b c d : α),
      ∃ a2 b2 c2 d2 y,
        module2_array_elements longBits e ⟨loop_count, [x0, a, b, c, d], T_, T1, T2⟩ =
          some [x0, a2, b2, c2, d2] ∧
        module3_array_as_parameter longBits e ⟨loop_count, [x0, a2, b2, c2, d2], T_, T1, T2⟩ =
          some [x0, y, b2, c2, d2]) := by
  refine ⟨fun α e T_ x0 a b c d => PA_eq e T_ x0 a b c d,
    fun α e T_ n x0 a b c d => loop_PA_frame e T_ n x0 a b c d, ?_⟩
  intro α e loop_count T_ T1 T2 x0 a b c d
  obtain ⟨y, hy⟩ := loop_PA_frame e T_ (trips longBits 14 loop_count) x0
    ((module1_body e T_)^[trips longBits 12 loop_count] ⟨a, b, c, d⟩).X1
    ((module1_body e T_)^[trips longBits 12 loop_count] ⟨a, b, c, d⟩).X2
    ((module1_body e T_)^[trips longBits 12 loop_count] ⟨a, b, c, d⟩).X3
    ((module1_body e T_)^[trips longBits 12 loop_count] ⟨a, b, c, d⟩).X4
  exact ⟨_, _, _, _, y, loop_module2_eq e T_ (trips longBits 12 loop_count) x0 a b c d, hy⟩

/-- C14, as stated, fails: with a 32-bit `long` and the loop count 178956971,
which `std::stol` admits, the bounds `12 * loop_count` and `14 * loop_count`
overflow and wrap to negative values, modules 2 and 3 make no iteration, and
the slots 1..4 stay `(1, -1, -1, -1)`. -/
theorem int_module2_skipped_on_overflow :
    (1 : Int) ≤ 178956971 ∧
    stol 32 "178956971".toList = Except.ok 178956971 ∧
    trips 32 12 178956971 = 0 ∧
    resetSlots intElem [0, 0, 0, 0, 0] = some [0, 1, -1, -1, -1] ∧
    module2_array_elements 32 intElem ⟨178956971, [0, 1, -1, -1, -1], 0, 0, 2⟩ =
      some [0, 1, -1, -1, -1] ∧
    module3_array_as_parameter 32 intElem ⟨178956971, [0, 1, -1, -1, -1], 0, 0, 2⟩ =
      some [0, 1, -1, -1, -1] := by
  have hv : numericValue "178956971".toList = some 178956971 := by decide
  have hs : stol 32 "178956971".toList = Except.ok 178956971 := by
    simp only [stol, hv]
    rw [if_pos (by norm_num)]
  have h2 : trips 32 12 178956971 = 0 := by decide
  have h3 : trips 32 14 178956971 = 0 := by decide
  refine ⟨by decide, hs, h2, resetSlots_int 0 0 0 0 0, ?_, ?_⟩
  · simp only [module2_array_elements, h2, loop]
  · simp only [module3_array_as_parameter, h3, loop]

/-- C14, amended: in the integer instantiation (`T_ = 0`), for every loop
count of at least 1 for which `12 * loop_count` does not overflow `long`, the
locals `X1`, `X2`, `X3`, `X4` are all 0 after module 1, and the slots 1..4 of
the container are all 0 after module 2 and after module 3. -/
theorem int_modules_yield_zero (longBits : Nat) (loop_count : Int) (h : 1 ≤ loop_count)
    (hb : 12 * loop_count < 2 ^ (longBits - 1)) :
    ∃ (b : Bench Int) (x : Quad Int) (E : List Int),
      WhetstoneBenchmark intElem loop_count = some b ∧ b.T_ = 0 ∧
      initQuad intElem.ofDouble 1 (-1) (-1) (-1) = some x ∧
      module1_simple_identifiers intElem b x = ⟨0, 0, 0, 0⟩ ∧
      resetSlots intElem b.E1 = some E ∧
      module2_array_elements longBits intElem { b with E1 := E } = some [0, 0, 0, 0, 0] ∧
      module3_array_as_parameter longBits intElem { b with E1 := [0, 0, 0, 0, 0] } =
        some [0, 0, 0, 0, 0] := by
  obtain ⟨n1, hn1⟩ := iterations_succ loop_count h
  obtain ⟨n2, hn2⟩ := trips_succ longBits 12 loop_count (by norm_num) h hb
  refine ⟨⟨loop_count, [0, 0, 0, 0, 0], 0, 0, 2⟩, ⟨1, -1, -1, -1⟩, [0, 1, -1, -1, -1],
    WhetstoneBenchmark_int loop_count, rfl, ?_, ?_, resetSlots_int 0 0 0 0 0, ?_, ?_⟩
  · simp [initQuad, intElem_ofDouble_one, intElem_ofDouble_neg_one]
  · simp only [module1_simple_identifiers, hn1, module1_iterate_int_zero]
  · simp only [module2_array_elements, hn2, loop_module2_int_zero]
  · simp only [module3_array_as_parameter, loop_PA_int_zero]

/-- C14, amended, with a 64-bit `long` at loop count 1. -/
theorem int_modules_yield_zero_witness :
    (1 : Int) ≤ 1 ∧ (12 : Int) * 1 < 2 ^ (64 - 1) ∧
    ∃ (b : Bench Int) (x : Quad Int) (E : List Int),
      WhetstoneBenchmark intElem 1 = some b ∧ b.T_ = 0 ∧
      initQuad intElem.ofDouble 1 (-1) (-1) (-1) = some x ∧
      module1_simple_identifiers intElem b x = ⟨0, 0, 0, 0⟩ ∧
      resetSlots intElem b.E1 = some E ∧
      module2_array_elements 64 intElem { b with E1 := E } = some [0, 0, 0, 0, 0] ∧
      module3_array_as_parameter 64 intElem { b with E1 := [0, 0, 0, 0, 0] } =
        some [0, 0, 0, 0, 0] :=
  ⟨by decide, by norm_num, int_modules_yield_zero 64 1 (by decide) (by norm_num)⟩

/-- C15, as stated, fails: with a 32-bit `long` and the loop count 10226120,
which `std::stol` admits, the bound `210 * loop_count` overflows and wraps to
a negative value, module 6 makes no iteration and stores nothing: `E[1]` and
`E[2]` are not 6. -/
theorem module6_skipped_on_overflow :
    (1 : Int) ≤ 10226120 ∧
    stol 32 "10226120".toList = Except.ok 10226120 ∧
    trips 32 210 10226120 = 0 ∧
    module6_integer_arithmetic 32 intElem wrap32 ⟨10226120, [0, 0, 0, 0, 0], 0, 0, 2⟩ =
      some ⟨1, 2, 3, [0, 0, 0, 0, 0]⟩ ∧
    module6_integer_arithmetic 32 intElem wrap32 ⟨10226120, [0, 0, 0, 0, 0], 0, 0, 2⟩ ≠
      some ⟨1, 2, 3, [0, 6, 6, 0, 0]⟩ := by
  have hv : numericValue "10226120".toList = some 10226120 := by decide
  have hs : stol 32 "10226120".toList = Except.ok 10226120 := by
    simp only [stol, hv]
    rw [if_pos (by norm_num)]
  have h6 : trips 32 210 10226120 = 0 := by decide
  have hm : module6_integer_arithmetic 32 intElem wrap32
      ⟨10226120, [0, 0, 0, 0, 0], 0, 0, 2⟩ = some ⟨1, 2, 3, [0, 0, 0, 0, 0]⟩ := by
    simp only [module6_integer_arithmetic, h6, loop]
  refine ⟨by decide, hs, h6, hm, ?_⟩
  rw [hm]
  simp

/-- C15, amended: in module 6, `(J, K, L) = (1, 2, 3)` is a fixed point of the
three assignments, every value computed in an iteration lies between 1 and 6
(so no `int` overflows), and for every loop count of at least 1 for which
`210 * loop_count` does not overflow `long` the module leaves `E[1] = 6` and
`E[2] = 6` and slots 0, 3 and 4 unchanged. -/
theorem module6_fixed_point (longBits : Nat) (loop_count : Int) (h : 1 ≤ loop_count)
    (hb : 210 * loop_count < 2 ^ (longBits - 1)) :
    module6_locals id (1, 2, 3) = (1, 2, 3) ∧
    module6_locals wrap32 (1, 2, 3) = (1, 2, 3) ∧
    (∀ n : Nat, (module6_locals wrap32)^[n] (1, 2, 3) = (1, 2, 3)) ∧
    (∀ v ∈ module6_values (1, 2, 3), 1 ≤ v ∧ v ≤ 6) ∧
    (∀ v ∈ module6_values (1, 2, 3), -2 ^ 31 ≤ v ∧ v < 2 ^ 31) ∧
    (∀ (α : Type) (e : Elem α) (T_ T1 T2 x0 x1 x2 x3 x4 : α),
      module6_integer_arithmetic longBits e wrap32
        ⟨loop_count, [x0, x1, x2, x3, x4], T_, T1, T2⟩ =
          some ⟨1, 2, 3, [x0, e.ofInt 6, e.ofInt 6, x3, x4]⟩) ∧
    intElem.ofInt 6 = 6 ∧ realElem.ofInt 6 = Dbl.fin 6 := by
  have hv : ∀ v ∈ module6_values (1, 2, 3), 1 ≤ v ∧ v ≤ 6 := by decide
  obtain ⟨n, hn⟩ := trips_succ longBits 210 loop_count (by norm_num) h hb
  refine ⟨by decide, module6_locals_fixed, module6_locals_iterate, hv, ?_, ?_, rfl, ?_⟩
  · intro v hmem
    have := hv v hmem
    constructor <;> omega
  · intro α e T_ T1 T2 x0 x1 x2 x3 x4
    simp only [module6_integer_arithmetic, hn, loop_module6]
  · simp [realElem]

/-- C15, amended, with a 64-bit `long` at loop count 1. -/
theorem module6_fixed_point_witness :
    (1 : Int) ≤ 1 ∧ (210 : Int) * 1 < 2 ^ (64 - 1) ∧
    module6_integer_arithmetic 64 intElem wrap32 ⟨1, [0, 0, 0, 0, 0], 0, 0, 2⟩ =
      some ⟨1, 2, 3, [0, 6, 6, 0, 0]⟩ :=
  ⟨by decide, by norm_num,
    (module6_fixed_point 64 1 (by decide) (by norm_num)).2.2.2.2.2.1 Int intElem
      0 0 2 0 0 0 0 0⟩

/-- C16, as stated, fails: with a 32-bit `long` and the loop count 3486175,
and with a 64-bit `long` and the loop count 14973006553335676, both admitted by
`std::stol`, the bound `616 * loop_count` overflows and wraps to a negative
value, `P0` is never called and the slots stay `(1, 2, 3)`. -/
theorem module9_skipped_on_overflow :
    (1 : Int) ≤ 3486175 ∧
    stol 32 "3486175".toList = Except.ok 3486175 ∧
    trips 32 616 3486175 = 0 ∧
    module9_array_references 32 intElem ⟨3486175, [0, 6, 6, 0, 0], 0, 0, 2⟩ =
      some [0, 1, 2, 3, 0] ∧
    stol 64 "14973006553335676".toList = Except.ok 14973006553335676 ∧
    trips 64 616 14973006553335676 = 0 ∧
    module9_array_references 64 intElem ⟨14973006553335676, [0, 6, 6, 0, 0], 0, 0, 2⟩ =
      some [0, 1, 2, 3, 0] := by
  have hv : numericValue "3486175".toList = some 3486175 := by decide
  have hs : stol 32 "3486175".toList = Except.ok 3486175 := by
    simp only [stol, hv]
    rw [if_pos (by norm_num)]
  have hv' : numericValue "14973006553335676".toList = some 14973006553335676 := by decide
  have hs' : stol 64 "14973006553335676".toList = Except.ok 14973006553335676 := by
    simp only [stol, hv']
    rw [if_pos (by norm_num)]
  have h9 : trips 32 616 3486175 = 0 := by decide
  have h9' : trips 64 616 14973006553335676 = 0 := by decide
  exact ⟨by decide, hs, h9, module9_int_none 32 3486175 h9 0 0 2 0 6 6 0 0, hs', h9',
    module9_int_none 64 14973006553335676 h9' 0 0 2 0 6 6 0 0⟩

/-- C16, amended: one rotation after another, the slots `(E[1], E[2], E[3])`
started at `(a, b, c)` are `(b, a, b)` after an odd number of rotations and
`(a, b, a)` after an even number of at least two; so for every loop count of at
least 1 for which `616 * loop_count` does not overflow `long`, and each
instantiation, module 9 leaves `(1, 2, 1)`; and from `(1, 2, 3)` the value 3 is
in none of the three slots after the first rotation. -/
theorem module9_final_slots (longBits : Nat) (loop_count : Int) (h : 1 ≤ loop_count)
    (hb : 616 * loop_count < 2 ^ (longBits - 1)) :
    (∀ (α : Type) (x0 a b c x4 : α) (k : Nat),
      loop P0 (2 * k + 1) [x0, a, b, c, x4] = some [x0, b, a, b, x4] ∧
      loop P0 (2 * k + 2) [x0, a, b, c, x4] = some [x0, a, b, a, x4]) ∧
    (∀ T_ T1 T2 x0 x1 x2 x3 x4 : Int,
      module9_array_references longBits intElem
        ⟨loop_count, [x0, x1, x2, x3, x4], T_, T1, T2⟩ = some [x0, 1, 2, 1, x4]) ∧
    (∀ T_ T1 T2 x0 x1 x2 x3 x4 : Dbl,
      module9_array_references longBits realElem
        ⟨loop_count, [x0, x1, x2, x3, x4], T_, T1, T2⟩ =
          some [x0, Dbl.fin 1, Dbl.fin 2, Dbl.fin 1, x4]) ∧
    (∀ (n : Nat) (x0 x4 : Int), ∃ E, loop P0 (n + 1) [x0, 1, 2, 3, x4] = some E ∧
      (E = [x0, 2, 1, 2, x4] ∨ E = [x0, 1, 2, 1, x4]) ∧
      E.get? 1 ≠ some 3 ∧ E.get? 2 ≠ some 3 ∧ E.get? 3 ≠ some 3) := by
  obtain ⟨k9, hk9⟩ := trips_616 longBits loop_count h hb
  refine ⟨fun α x0 a b c x4 k => loop_P0_parity x0 a b c x4 k,
    fun T_ T1 T2 x0 x1 x2 x3 x4 =>
      module9_int longBits loop_count k9 hk9 T_ T1 T2 x0 x1 x2 x3 x4,
    fun T_ T1 T2 x0 x1 x2 x3 x4 =>
      module9_generic longBits realElem loop_count k9 hk9 _ _ _ rfl rfl rfl
        T_ T1 T2 x0 x1 x2 x3 x4, ?_⟩
  intro n x0 x4
  rcases Nat.even_or_odd' n with ⟨k, rfl | rfl⟩
  · exact ⟨_, (loop_P0_parity x0 1 2 3 x4 k).1, Or.inl rfl, by simp, by simp, by simp⟩
  · exact ⟨_, (loop_P0_parity x0 1 2 3 x4 k).2, Or.inr rfl, by simp, by simp, by simp⟩

/-- C16, amended, with a 64-bit `long` at loop count 1. -/
theorem module9_final_slots_witness :
    (1 : Int) ≤ 1 ∧ (616 : Int) * 1 < 2 ^ (64 - 1) ∧
    module9_array_references 64 intElem ⟨1, [0, 6, 6, 0, 0], 0, 0, 2⟩ = some [0, 1, 2, 1, 0] :=
  ⟨by decide, by norm_num,
    (module9_final_slots 64 1 (by decide) (by norm_num)).2.1 0 0 2 0 6 6 0 0⟩

/-- C17, as stated, fails: with a 32-bit `long` and the odd loop count 6224591,
which `std::stol` admits, the bound `345 * loop_count` overflows and wraps to
a negative value, module 4 makes no iteration and `J` is still 1, not 0. -/
theorem module4_skipped_on_overflow :
    (0 : Int) ≤ 6224591 ∧ (6224591 : Int) % 2 = 1 ∧
    stol 32 "6224591".toList = Except.ok 6224591 ∧
    trips 32 345 6224591 = 0 ∧
    module4_conditional_jumps 32 6224591 = 1 ∧
    module4_conditional_jumps 32 6224591 ≠ 0 := by
  have hv : numericValue "6224591".toList = some 6224591 := by decide
  have hs : stol 32 "6224591".toList = Except.ok 6224591 := by
    simp only [stol, hv]
    rw [if_pos (by norm_num)]
  have h4 : trips 32 345 6224591 = 0 := by decide
  have hm : module4_conditional_jumps 32 6224591 = 1 := by
    simp only [module4_conditional_jumps, h4, Function.iterate_zero, id_eq]
  refine ⟨by decide, by decide, hs, h4, hm, ?_⟩
  rw [hm]
  decide

/-- C17, amended: in module 4, started from `J = 1`, `J` is 0 at the end of
every odd iteration and 1 at the end of every even one, so it is always 0 or 1
between iterations; when `345 * loop_count` does not overflow `long`, `J` is
0 after the module when `loop_count` is odd and 1 when it is even. -/
theorem module4_parity (longBits : Nat) (loop_count : Int) (h : 0 ≤ loop_count)
    (hb : 345 * loop_count < 2 ^ (longBits - 1)) :
    (∀ n : Nat, module4_body^[2 * n + 1] 1 = 0 ∧ module4_body^[2 * n] 1 = 1) ∧
    (∀ n : Nat, module4_body^[n] 1 = 0 ∨ module4_body^[n] 1 = 1) ∧
    (loop_count % 2 = 1 → module4_conditional_jumps longBits loop_count = 0) ∧
    (loop_count % 2 = 0 → module4_conditional_jumps longBits loop_count = 1) := by
  have ht := trips_of_range longBits 345 loop_count (by linarith) hb
  refine ⟨fun n => ⟨(module4_iterate n).2, (module4_iterate n).1⟩, ?_, ?_, ?_⟩
  · intro n
    rcases Nat.even_or_odd' n with ⟨k, rfl | rfl⟩
    · exact Or.inr (module4_iterate k).1
    · exact Or.inl (module4_iterate k).2
  · intro hodd
    have hk : trips longBits 345 loop_count = 2 * ((345 * loop_count).toNat / 2) + 1 := by
      rw [ht]
      omega
    rw [module4_conditional_jumps, hk]
    exact (module4_iterate _).2
  · intro heven
    have hk : trips longBits 345 loop_count = 2 * ((345 * loop_count).toNat / 2) := by
      rw [ht]
      omega
    rw [module4_conditional_jumps, hk]
    exact (module4_iterate _).1

/-- C17, amended, with a 64-bit `long` at the loop counts 1 (odd) and 2
(even). -/
theorem module4_parity_witness :
    (0 : Int) ≤ 1 ∧ (345 : Int) * 1 < 2 ^ (64 - 1) ∧ (1 : Int) % 2 = 1 ∧
    module4_conditional_jumps 64 1 = 0 ∧
    (0 : Int) ≤ 2 ∧ (345 : Int) * 2 < 2 ^ (64 - 1) ∧ (2 : Int) % 2 = 0 ∧
    module4_conditional_jumps 64 2 = 1 :=
  ⟨by decide, by norm_num, by decide,
    (module4_parity 64 1 (by decide) (by norm_num)).2.2.1 (by decide),
    by decide, by norm_num, by decide,
    (module4_parity 64 2 (by decide) (by norm_num)).2.2.2 (by decide)⟩

/-- C18, as stated, fails: in the integer instantiation with a 32-bit `long`
and the loop count 3486175, which `std::stol` admits, `616 * loop_count`
overflows and wraps to a negative value, module 9 makes no rotation, and
`perform_benchmark` leaves the container `[0, 1, 2, 3, 0]`, not
`[0, 1, 2, 1, 0]`. -/
theorem int_final_container_on_overflow :
    (1 : Int) ≤ 3486175 ∧
    stol 32 "3486175".toList = Except.ok 3486175 ∧
    ∃ (b : Bench Int) (f : Final Int),
      WhetstoneBenchmark intElem 3486175 = some b ∧
      perform_benchmark 32 intElem linearCmath b = some f ∧
      f.E1 = [0, 1, 2, 3, 0] ∧ f.E1 ≠ [0, 1, 2, 1, 0] := by
  have hv : numericValue "3486175".toList = some 3486175 := by decide
  have hs : stol 32 "3486175".toList = Except.ok 3486175 := by
    simp only [stol, hv]
    rw [if_pos (by norm_num)]
  have h2 : trips 32 12 3486175 = 41834099 + 1 := by decide
  have h6 : trips 32 210 3486175 = 732096749 + 1 := by decide
  have h9 : trips 32 616 3486175 = 0 := by decide
  obtain ⟨f, hf, hE, -⟩ := perform_benchmark_int_of linearCmath_annexF 32 3486175
    41834099 732096749 [0, 1, 2, 3, 0] h2 h6 (module9_int_none 32 3486175 h9 0 0 2 0 6 6 0 0)
  refine ⟨by decide, hs, ⟨3486175, [0, 0, 0, 0, 0], 0, 0, 2⟩, f,
    WhetstoneBenchmark_int 3486175, hf, hE, ?_⟩
  rw [hE]
  decide

/-- C18, amended: in the integer instantiation, for every loop count of at
least 1 for which `616 * loop_count` does not overflow `long`,
`perform_benchmark` runs to completion (no container access is out of bounds)
and leaves the container `[0, 1, 2, 1, 0]`, whatever the loop count; on the
way the container is `[0, 1, -1, -1, -1]` before module 2, all zero after
modules 2 and 3, `[0, 6, 6, 0, 0]` after module 6; and from any 5-element
container modules 2, 3, 6 and 9 complete and return a 5-element container. -/
theorem int_final_container (longBits : Nat) (m : Cmath) (hm : AnnexF m) (loop_count : Int)
    (h : 1 ≤ loop_count) (hb : 616 * loop_count < 2 ^ (longBits - 1)) :
    (∃ (b : Bench Int) (f : Final Int),
      WhetstoneBenchmark intElem loop_count = some b ∧ b.E1 = [0, 0, 0, 0, 0] ∧
      perform_benchmark longBits intElem m b = some f ∧ f.E1 = [0, 1, 2, 1, 0] ∧
      f.E1.length = 5 ∧
      resetSlots intElem b.E1 = some [0, 1, -1, -1, -1] ∧
      module2_array_elements longBits intElem { b with E1 := [0, 1, -1, -1, -1] } =
        some [0, 0, 0, 0, 0] ∧
      module3_array_as_parameter longBits intElem { b with E1 := [0, 0, 0, 0, 0] } =
        some [0, 0, 0, 0, 0] ∧
      module6_integer_arithmetic longBits intElem wrap32 { b with E1 := [0, 0, 0, 0, 0] } =
        some ⟨1, 2, 3, [0, 6, 6, 0, 0]⟩ ∧
      module9_array_references longBits intElem { b with E1 := [0, 6, 6, 0, 0] } =
        some [0, 1, 2, 1, 0]) ∧
    (∀ (T_ T1 T2 x0 x1 x2 x3 x4 : Int),
      (∃ E, module2_array_elements longBits intElem
        ⟨loop_count, [x0, x1, x2, x3, x4], T_, T1, T2⟩ = some E ∧ E.length = 5) ∧
      (∃ E, module3_array_as_parameter longBits intElem
        ⟨loop_count, [x0, x1, x2, x3, x4], T_, T1, T2⟩ = some E ∧ E.length = 5) ∧
      (∃ s, module6_integer_arithmetic longBits intElem wrap32
        ⟨loop_count, [x0, x1, x2, x3, x4], T_, T1, T2⟩ = some s ∧ s.E1.length = 5) ∧
      (∃ E, module9_array_references longBits intElem
        ⟨loop_count, [x0, x1, x2, x3, x4], T_, T1, T2⟩ = some E ∧ E.length = 5)) := by
  obtain ⟨n2, hn2⟩ := trips_succ longBits 12 loop_count (by norm_num) h (by linarith)
  obtain ⟨n6, hn6⟩ := trips_succ longBits 210 loop_count (by norm_num) h (by linarith)
  obtain ⟨k9, hk9⟩ := trips_616 longBits loop_count h hb
  have h9 := module9_int longBits loop_count k9 hk9 0 0 2 0 6 6 0 0
  obtain ⟨f, hf, hE, -⟩ := perform_benchmark_int_of hm longBits loop_count n2 n6
    [0, 1, 2, 1, 0] hn2 hn6 h9
  refine ⟨⟨⟨loop_count, [0, 0, 0, 0, 0], 0, 0, 2⟩, f, WhetstoneBenchmark_int loop_count, rfl,
    hf, hE, by rw [hE]; rfl, resetSlots_int 0 0 0 0 0, ?_, ?_, ?_, h9⟩, ?_⟩
  · simp only [module2_array_elements, hn2, loop_module2_int_zero]
  · simp only [module3_array_as_parameter, loop_PA_int_zero]
  · simp only [module6_integer_arithmetic, hn6, loop_module6]
    rfl
  · intro T_ T1 T2 x0 x1 x2 x3 x4
    refine ⟨module2_length longBits intElem _ rfl, module3_length longBits intElem _ rfl, ?_,
      module9_length longBits intElem _ 1 2 3 intElem_ofDouble_one intElem_ofDouble_two
        intElem_ofDouble_three rfl⟩
    obtain ⟨s, hs, -, hl⟩ := module6_fixed longBits intElem
      ⟨loop_count, [x0, x1, x2, x3, x4], T_, T1, T2⟩ rfl
    exact ⟨s, hs, hl⟩

/-- C18, amended, with the stand-in for `<cmath>`, a 64-bit `long` and loop
count 1. -/
theorem int_final_container_witness :
    AnnexF linearCmath ∧ (1 : Int) ≤ 1 ∧ (616 : Int) * 1 < 2 ^ (64 - 1) ∧
    ∃ (b : Bench Int) (f : Final Int),
      WhetstoneBenchmark intElem 1 = some b ∧ b.E1 = [0, 0, 0, 0, 0] ∧
      perform_benchmark 64 intElem linearCmath b = some f ∧ f.E1 = [0, 1, 2, 1, 0] ∧
      f.E1.length = 5 ∧
      resetSlots intElem b.E1 = some [0, 1, -1, -1, -1] ∧
      module2_array_elements 64 intElem { b with E1 := [0, 1, -1, -1, -1] } =
        some [0, 0, 0, 0, 0] ∧
      module3_array_as_parameter 64 intElem { b with E1 := [0, 0, 0, 0, 0] } =
        some [0, 0, 0, 0, 0] ∧
      module6_integer_arithmetic 64 intElem wrap32 { b with E1 := [0, 0, 0, 0, 0] } =
        some ⟨1, 2, 3, [0, 6, 6, 0, 0]⟩ ∧
      module9_array_references 64 intElem { b with E1 := [0, 6, 6, 0, 0] } =
        some [0, 1, 2, 1, 0] :=
  ⟨linearCmath_annexF, by decide, by norm_num,
    (int_final_container 64 linearCmath linearCmath_annexF 1 (by decide) (by norm_num)).1⟩

end Whetstone
